import Mathlib

/-!
Verification development for the API-connector repository.

The file shallowly embeds the three core components of the repository —
the storage layer (`src/config/api_data_storage.py`), the data
transformer (`src/api_connecter_mcp/utils/data_transformer.py`) and the
HTTP connector's retry loop and XML decoder
(`src/api_connecter_mcp/config/api_connector.py`) — as executable Lean
definitions, and proves properties of those definitions.

Python's dynamic values (the `Any` data flowing through the pipeline)
are modelled by the mutual inductive type `PyVal` below: `None`, `bool`,
`int`, `float`, `str`, `list` and `dict` with string keys.  Python
`float` is modelled by `Rat`; no property proved in this file depends on
IEEE-754 rounding.  Dict insertion order is significant in Python 3.7+,
so dicts are ordered association structures.
-/

mutual

/-- A Python runtime value as it flows through the connector, the
transformer and the storage layer. -/
inductive PyVal where
  | none
  | bool (b : Bool)
  | int (n : Int)
  | float (q : Rat)
  | str (s : String)
  | list (xs : PyList)
  | dict (kvs : PyDict)
  | datetime (year month day hour minute second : Nat)
  deriving DecidableEq

/-- A Python list of `PyVal`s (spelled out so that all recursions over
`PyVal` are structural and hence kernel-computable). -/
inductive PyList where
  | nil
  | cons (v : PyVal) (rest : PyList)
  deriving DecidableEq

/-- A Python dict with string keys, in insertion order. -/
inductive PyDict where
  | nil
  | cons (k : String) (v : PyVal) (rest : PyDict)
  deriving DecidableEq

end

/-- Convert a `PyList` to a Lean `List`. -/
def PyList.toList : PyList → List PyVal
  | .nil => []
  | .cons v rest => v :: rest.toList

/-- Convert a Lean `List` to a `PyList`. -/
def PyList.ofList : List PyVal → PyList
  | [] => .nil
  | v :: rest => .cons v (ofList rest)

/-- The entries of a `PyDict`, in insertion order. -/
def PyDict.toEntries : PyDict → List (String × PyVal)
  | .nil => []
  | .cons k v rest => (k, v) :: rest.toEntries

/-- Build a `PyDict` from a list of entries. -/
def PyDict.ofEntries : List (String × PyVal) → PyDict
  | [] => .nil
  | (k, v) :: rest => .cons k v (ofEntries rest)

/-- The keys of a `PyDict`, in insertion order. -/
def PyDict.keys (d : PyDict) : List String := d.toEntries.map Prod.fst

/-- First value bound to `k`, as Python `dict.__getitem__` /
`dict.get` see it (dicts never hold duplicate keys in Python, so
"first" is exact). -/
def PyDict.find : PyDict → String → Option PyVal
  | .nil, _ => Option.none
  | .cons k v rest, key => if k = key then some v else rest.find key

/-- Python `key in dict`. -/
def PyDict.hasKey (d : PyDict) (k : String) : Bool := (d.find k).isSome

/-- Python `dict[k] = v`: replaces the value in place if the key is
present, otherwise appends a new entry (Python 3.7+ insertion-order
semantics). -/
def PyDict.set : PyDict → String → PyVal → PyDict
  | .nil, k, v => .cons k v .nil
  | .cons k' v' rest, k, v =>
      if k' = k then .cons k' v rest else .cons k' v' (rest.set k v)

/-! ### String utilities

Core `String.lt` is implemented with well-founded recursion over
iterators and does not reduce in the kernel, so every string operation
used by the embedding is implemented structurally over `String.data`
(the character list).  Characters compare by Unicode code point, exactly
as Python compares `str` values. -/

/-- Lexicographic strict order on character lists by code point —
Python's `<` on `str`. -/
def strLtL : List Char → List Char → Bool
  | [], [] => false
  | [], _ :: _ => true
  | _ :: _, [] => false
  | a :: as, b :: bs =>
      if a.toNat < b.toNat then true
      else if b.toNat < a.toNat then false
      else strLtL as bs

/-- Python `a < b` on strings. -/
def strLt (a b : String) : Bool := strLtL a.data b.data

/-- Python `a <= b` on strings. -/
def strLe (a b : String) : Bool := !(strLt b a)

/-- Is `c` an ASCII whitespace character (the characters Python
`str.strip()` removes for the inputs arising here)? -/
def isSpaceChar (c : Char) : Bool :=
  c = ' ' || c = '\t' || c = '\n' || c = '\r' || c = '\x0b' || c = '\x0c'

/-- Python `str.strip()`: remove leading and trailing whitespace. -/
def pyStrip (s : String) : String :=
  ⟨(s.data.dropWhile isSpaceChar).reverse.dropWhile isSpaceChar |>.reverse⟩

/-- Python `str.strip(chars)`: remove leading and trailing characters
belonging to `chars`. -/
def pyStripChars (s : String) (chars : List Char) : String :=
  ⟨(s.data.dropWhile (chars.contains ·)).reverse.dropWhile (chars.contains ·) |>.reverse⟩

/-- Python `a.startswith(b)`. -/
def pyStartswith (a b : String) : Bool := b.data.isPrefixOf a.data

/-- Character-list suffix test. -/
def listIsSuffix (b a : List Char) : Bool := b.reverse.isPrefixOf a.reverse

/-- Python `a.endswith(b)`. -/
def pyEndswith (a b : String) : Bool := listIsSuffix b.data a.data

/-- Substring test on character lists: does `needle` occur inside
`hay`? -/
def listInfix (needle : List Char) : List Char → Bool
  | [] => needle.isEmpty
  | c :: rest => needle.isPrefixOf (c :: rest) || listInfix needle rest

/-- Python `b in a` for strings (substring containment). -/
def pyStrContains (a b : String) : Bool := listInfix b.data a.data

/-- Does character `c` occur in `s`?  (Python `c in s` for a single
character.) -/
def strHasChar (s : String) (c : Char) : Bool := s.data.contains c

/-- Python `s.split(sep)` for a non-empty separator `s0 :: sep`, on
character lists. -/
def splitOnAux (s0 : Char) (sep : List Char) : List Char → List Char → List (List Char)
  | [], acc => [acc.reverse]
  | c :: rest, acc =>
      if (s0 :: sep).isPrefixOf (c :: rest) then
        acc.reverse :: splitOnAux s0 sep (List.drop sep.length rest) []
      else
        splitOnAux s0 sep rest (c :: acc)
termination_by cs _ => cs.length
decreasing_by
  · simp only [List.length_drop, List.length_cons]
    omega
  · simp

/-- Python `s.split(sep)`; Python raises on an empty separator, which
is modelled as `Option.none` (no caller in the sources splits on an
empty separator). -/
def pySplit (s sep : String) : Option (List String) :=
  match sep.data with
  | [] => Option.none
  | s0 :: rest => some ((splitOnAux s0 rest s.data []).map fun cs => ⟨cs⟩)

/-! ### Python value semantics -/

/-- Python truthiness: `bool(v)`. -/
def pyTruthy : PyVal → Bool
  | .none => false
  | .bool b => b
  | .int n => n ≠ 0
  | .float q => q ≠ 0
  | .str s => s ≠ ""
  | .list xs => xs ≠ .nil
  | .dict kvs => kvs ≠ .nil
  | .datetime _ _ _ _ _ _ => true

/-- The numeric value of a Python number, if the value is one
(`bool` is a subtype of `int` in Python). -/
def pyNum : PyVal → Option Rat
  | .bool b => some (if b then 1 else 0)
  | .int n => some (n : Rat)
  | .float q => some q
  | _ => Option.none

mutual

/-- Python `==`.  Numbers compare across `bool`/`int`/`float` by value;
lists compare pointwise; dicts compare as key→value maps, ignoring
entry order (same entry count and every entry of the left dict matched
under its key in the right one — equivalent to Python dict equality
since Python dicts cannot hold duplicate keys).  `==` never raises in
Python, so this is `Bool`-valued. -/
def pyEq : PyVal → PyVal → Bool
  | .str a, .str b => a = b
  | .none, .none => true
  | .list xs, .list ys => pyEqList xs ys
  | .dict xs, .dict ys =>
      xs.toEntries.length = ys.toEntries.length && pyEqDictSub xs ys
  | .datetime y mo d h mi sec, .datetime y' mo' d' h' mi' sec' =>
      y = y' && mo = mo' && d = d' && h = h' && mi = mi' && sec = sec'
  | a, b =>
      match pyNum a, pyNum b with
      | some x, some y => x = y
      | _, _ => false
termination_by structural v => v

/-- Pointwise `==` on Python lists. -/
def pyEqList : PyList → PyList → Bool
  | .nil, .nil => true
  | .cons a as, .cons b bs => pyEq a b && pyEqList as bs
  | _, _ => false
termination_by structural xs => xs

/-- One inclusion of Python dict equality: every entry of `xs` is
matched by an `==`-equal value under the same key in `ys`. -/
def pyEqDictSub : PyDict → PyDict → Bool
  | .nil, _ => true
  | .cons k v rest, ys =>
      (match ys.find k with
       | some w => pyEq v w
       | Option.none => false) && pyEqDictSub rest ys
termination_by structural xs => xs

end

mutual

/-- Python rich comparison `<` / `>` as an `Ordering`, or `Option.none`
when the comparison raises `TypeError` (e.g. `str` vs `int`, or
anything involving `None` or dicts). -/
def pyCompare : PyVal → PyVal → Option Ordering
  | .str a, .str b =>
      some (if strLt a b then .lt else if strLt b a then .gt else .eq)
  | .datetime y mo d h mi sec, .datetime y' mo' d' h' mi' sec' =>
      some ((compare y y').then ((compare mo mo').then ((compare d d').then
        ((compare h h').then ((compare mi mi').then (compare sec sec'))))))
  | .list xs, .list ys => pyCompareList xs ys
  | a, b =>
      match pyNum a, pyNum b with
      | some x, some y => some (compare x y)
      | _, _ => Option.none
termination_by structural v => v

/-- Python list comparison: lexicographic, first by `==`, then by `<`
on the first differing elements; raises if those elements are
incomparable. -/
def pyCompareList : PyList → PyList → Option Ordering
  | .nil, .nil => some .eq
  | .nil, .cons _ _ => some .lt
  | .cons _ _, .nil => some .gt
  | .cons a as, .cons b bs =>
      if pyEq a b then pyCompareList as bs
      else match pyCompare a b with
        | some .eq => pyCompareList as bs
        | some o => some o
        | Option.none => Option.none
termination_by structural xs => xs

end

/-- Python `a > b`, `Option.none` when the comparison raises. -/
def pyGt (a b : PyVal) : Option Bool := (pyCompare a b).map (· = .gt)

/-- Python `a >= b`, `Option.none` when the comparison raises. -/
def pyGe (a b : PyVal) : Option Bool := (pyCompare a b).map (· ≠ .lt)

/-- Python `a < b`, `Option.none` when the comparison raises. -/
def pyLt (a b : PyVal) : Option Bool := (pyCompare a b).map (· = .lt)

/-- Python `a <= b`, `Option.none` when the comparison raises. -/
def pyLe (a b : PyVal) : Option Bool := (pyCompare a b).map (· ≠ .gt)

/-- Decimal digits of a natural number. -/
def natDigits (n : Nat) : List Char :=
  (Nat.toDigits 10 n)

/-- Python `str(n)` for an integer. -/
def intStr (n : Int) : String :=
  if n < 0 then "-" ++ ⟨natDigits n.natAbs⟩ else ⟨natDigits n.natAbs⟩

/-- A natural number zero-padded to two digits. -/
def pad2 (n : Nat) : String := if n < 10 then "0" ++ intStr n else intStr n

/-- A year zero-padded to four digits. -/
def pad4 (n : Nat) : String :=
  if n < 10 then "000" ++ intStr n
  else if n < 100 then "00" ++ intStr n
  else if n < 1000 then "0" ++ intStr n
  else intStr n

/-- Text rendering of the `Rat` standing in for a Python float.  Python
renders floats via `repr`; since `Rat` only approximates Python floats,
this rendering is the one fidelity gap of the model, and no property in
this file evaluates it. -/
def floatStr (q : Rat) : String :=
  if q.den = 1 then intStr q.num ++ ".0"
  else intStr q.num ++ "/" ++ intStr (q.den : Int)

mutual

/-- Python `repr(v)`.  String quoting is modelled with a plain single
quote and no escape processing; no property proved here evaluates
`repr` of a string containing quotes. -/
def pyRepr : PyVal → String
  | .none => "None"
  | .bool b => if b then "True" else "False"
  | .int n => intStr n
  | .float q => floatStr q
  | .str s => "'" ++ s ++ "'"
  | .list xs => "[" ++ pyReprList xs ++ "]"
  | .dict kvs => "\x7b" ++ pyReprDict kvs ++ "\x7d"
  | .datetime y mo d h mi sec =>
      "datetime.datetime(" ++ intStr y ++ ", " ++ intStr mo ++ ", " ++ intStr d ++
        ", " ++ intStr h ++ ", " ++ intStr mi ++ ", " ++ intStr sec ++ ")"
termination_by structural v => v

def pyReprList : PyList → String
  | .nil => ""
  | .cons v .nil => pyRepr v
  | .cons v rest => pyRepr v ++ ", " ++ pyReprList rest
termination_by structural xs => xs

def pyReprDict : PyDict → String
  | .nil => ""
  | .cons k v .nil => "'" ++ k ++ "': " ++ pyRepr v
  | .cons k v rest => "'" ++ k ++ "': " ++ pyRepr v ++ ", " ++ pyReprDict rest
termination_by structural kvs => kvs

end

/-- Python `str(v)`. -/
def pyStr : PyVal → String
  | .str s => s
  | .datetime y mo d h mi sec =>
      pad4 y ++ "-" ++ pad2 mo ++ "-" ++ pad2 d ++ " " ++
        pad2 h ++ ":" ++ pad2 mi ++ ":" ++ pad2 sec
  | v => pyRepr v

/-! ### Canonicalization and the content hash

`store_api_data` computes `data_str = json.dumps(raw_data,
sort_keys=True, default=str)` and `data_hash =
md5(data_str).hexdigest()`.  `sort_keys=True` sorts dict keys
recursively, so the serialized text — and hence the digest — is a
function of the value with all dict entries recursively sorted by key.
The model keeps that canonical form itself as the digest: two values
receive the same `data_hash` exactly when their canonical forms
coincide (`md5 ∘ dumps` is deterministic, and md5 collisions are not
modelled). -/

/-- Ordering of dict entries used by `json.dumps(..., sort_keys=True)`:
by key, lexicographically by code point. -/
def keyLe (a b : String × PyVal) : Prop := strLe a.1 b.1 = true

instance : DecidableRel keyLe := fun a b => inferInstanceAs (Decidable (strLe a.1 b.1 = true))

mutual

/-- The canonical form of a value: every dict has its entries sorted by
key, recursively — the part of `json.dumps(v, sort_keys=True)` that
determines the serialized text. -/
def canonical : PyVal → PyVal
  | .dict kvs => .dict (PyDict.ofEntries (List.insertionSort keyLe (canonicalDict kvs).toEntries))
  | .list xs => .list (canonicalList xs)
  | v => v
termination_by structural v => v

def canonicalList : PyList → PyList
  | .nil => .nil
  | .cons v rest => .cons (canonical v) (canonicalList rest)
termination_by structural xs => xs

def canonicalDict : PyDict → PyDict
  | .nil => .nil
  | .cons k v rest => .cons k (canonical v) (canonicalDict rest)
termination_by structural kvs => kvs

end

/-- The content hash `store_api_data` deduplicates on, abstracted as
the canonical form itself (see the section comment above). -/
def dataHash (v : PyVal) : PyVal := canonical v

/-- Pairwise-distinct keys of a dict. -/
def distinctKeys : PyDict → Bool
  | .nil => true
  | .cons k _ rest => !rest.hasKey k && distinctKeys rest

mutual

/-- Well-formedness of a value as a `StructuredValue`: every dict in it
has pairwise-distinct keys (Python dicts cannot hold duplicate keys). -/
def wfKeys : PyVal → Bool
  | .dict kvs => distinctKeys kvs && wfKeysDict kvs
  | .list xs => wfKeysList xs
  | _ => true
termination_by structural v => v

def wfKeysList : PyList → Bool
  | .nil => true
  | .cons v rest => wfKeys v && wfKeysList rest
termination_by structural xs => xs

def wfKeysDict : PyDict → Bool
  | .nil => true
  | .cons _ v rest => wfKeys v && wfKeysDict rest
termination_by structural kvs => kvs

end

mutual

/-- Key-order-insensitive deep equality of two `StructuredValue`s, read
off the spec's words: equal atoms, pointwise-equal lists, and dicts
that bind the same keys to deep-equal values (entry order ignored).
This is the relation of the spec's "deep-equal after
key-order-insensitive comparison"; the code itself only ever compares
content hashes. -/
def keyOrderEqv : PyVal → PyVal → Bool
  | .none, .none => true
  | .bool a, .bool b => a == b
  | .int a, .int b => a == b
  | .float a, .float b => a == b
  | .str a, .str b => a == b
  | .datetime y mo d h mi sec, .datetime y' mo' d' h' mi' sec' =>
      y == y' && mo == mo' && d == d' && h == h' && mi == mi' && sec == sec'
  | .dict xs, .dict ys =>
      xs.toEntries.length = ys.toEntries.length && keyOrderEqvSub xs ys
  | .list xs, .list ys => keyOrderEqvList xs ys
  | _, _ => false
termination_by structural v => v

def keyOrderEqvList : PyList → PyList → Bool
  | .nil, .nil => true
  | .cons a as, .cons b bs => keyOrderEqv a b && keyOrderEqvList as bs
  | _, _ => false
termination_by structural xs => xs

/-- Every entry of `xs` is matched under the same key in `ys` by a
deep-equal value. -/
def keyOrderEqvSub : PyDict → PyDict → Bool
  | .nil, _ => true
  | .cons k v rest, ys =>
      (match ys.find k with
       | some w => keyOrderEqv v w
       | Option.none => false) && keyOrderEqvSub rest ys
termination_by structural xs => xs

end

/-! ### The storage layer (`src/config/api_data_storage.py`)

`APIDataStorage` keeps a metadata SQLite database (tables
`storage_sessions` and `data_operations`) plus one SQLite data file per
session (table `api_data`).  The model holds the same content in a
`StorageState`: an association list of sessions (each carrying its data
file's rows) and the operation log.  Wall-clock `CURRENT_TIMESTAMP`
values are modelled by a logical clock that advances on every insert,
so record timestamps are strictly increasing in insertion order; the
`uuid4` operation ids are abstracted away (the log is an ordered
list). -/

/-- A row of a session's `api_data` table.  `raw_data`,
`processed_data` and `source_params` are stored as `json.dumps` text in
SQLite and parsed back by `json.loads` on retrieval; the model keeps
the parsed value (`dumps`/`loads` round-trips JSON-representable
values).  `data_hash` is the md5 digest of the canonically-serialized
raw value, modelled by the canonical form itself (see `dataHash`). -/
structure StoredRecord where
  id : Nat
  data_hash : PyVal
  raw_data : PyVal
  processed_data : Option PyVal
  source_params : Option PyVal
  timestamp : Nat
  deriving DecidableEq

/-- A row of `storage_sessions`, together with the contents of the
session's data file. -/
structure SessionInfo where
  session_name : String
  description : Option String
  api_name : String
  endpoint_name : String
  total_records : Nat
  created_at : Nat
  updated_at : Nat
  last_operation_at : Option Nat
  records : List StoredRecord
  next_id : Nat
  deriving DecidableEq

/-- A row of the `data_operations` audit table. -/
structure OperationEntry where
  session_id : String
  operation_type : String
  records_affected : Nat
  operation_details : String
  timestamp : Nat
  deriving DecidableEq

/-- The whole persistent state of `APIDataStorage`. -/
structure StorageState where
  sessions : List (String × SessionInfo)
  operations : List OperationEntry
  clock : Nat
  deriving DecidableEq

/-- `_get_session_info`: the session row keyed by `session_id`. -/
def getSessionInfo (s : StorageState) (session_id : String) : Option SessionInfo :=
  s.sessions.lookup session_id

/-- Update the session row keyed by `session_id` in place. -/
def updateSession (sessions : List (String × SessionInfo)) (session_id : String)
    (f : SessionInfo → SessionInfo) : List (String × SessionInfo) :=
  sessions.map fun kv => if kv.1 = session_id then (kv.1, f kv.2) else kv

/-- `_update_session_stats`: re-count the session's data file and stamp
`total_records`, `updated_at` and `last_operation_at` on the metadata
row (the code re-queries `COUNT(*)` rather than incrementing). -/
def update_session_stats (s : StorageState) (session_id : String) : StorageState :=
  match getSessionInfo s session_id with
  | Option.none => s
  | some sess =>
      let total := sess.records.length
      { s with sessions := updateSession s.sessions session_id fun se =>
          { se with total_records := total, updated_at := s.clock,
                    last_operation_at := some s.clock } }

/-- `_log_operation`: append one row to `data_operations`. -/
def log_operation (s : StorageState) (session_id operation_type : String)
    (records_affected : Nat) (details : String) : StorageState :=
  { s with operations :=
      s.operations ++ [⟨session_id, operation_type, records_affected, details, s.clock⟩] }

/-- Truthiness of an optional Python argument whose default is `None`. -/
def optTruthy : Option PyVal → Bool
  | Option.none => false
  | some v => pyTruthy v

/-- Result of `store_api_data`: the `(success, records_added, message)`
triple together with the post-call state. -/
structure StoreResult where
  ok : Bool
  records_added : Nat
  message : String
  state : StorageState
  deriving DecidableEq

/-- `store_api_data(session_id, raw_data, processed_data,
source_params)`: resolve the session, hash the raw value
(`md5(json.dumps(raw_data, sort_keys=True, default=str))`), return `0`
added if a record with that hash already exists (leaving stats and the
operation log untouched — the early return skips both), otherwise
insert the row (falsy `processed_data`/`source_params` are stored as
SQL `NULL`), re-count the session stats and append an operation-log
entry.  `records_added` is `conn.total_changes` after the single
`INSERT`, i.e. `1`. -/
def store_api_data (s : StorageState) (session_id : String) (raw_data : PyVal)
    (processed_data source_params : Option PyVal) : StoreResult :=
  match getSessionInfo s session_id with
  | Option.none => ⟨false, 0, "存储会话不存在: " ++ session_id, s⟩
  | some sess =>
      let hash := dataHash raw_data
      if sess.records.any (fun r => r.data_hash = hash) then
        ⟨true, 0, "数据已存在，跳过重复存储", s⟩
      else
        let rec1 : StoredRecord :=
          ⟨sess.next_id, hash, raw_data,
           if optTruthy processed_data then processed_data else Option.none,
           if optTruthy source_params then source_params else Option.none,
           s.clock⟩
        let records_added := 1
        let s1 : StorageState :=
          { s with
              sessions := updateSession s.sessions session_id fun se =>
                { se with records := se.records ++ [rec1], next_id := se.next_id + 1 },
              clock := s.clock + 1 }
        let s2 := update_session_stats s1 session_id
        let s3 := log_operation s2 session_id "store_data" records_added
          "存储API数据，哈希: ..."
        ⟨true, records_added, "数据存储成功，新增 " ++ intStr records_added ++ " 条记录", s3⟩

/-- Result of `get_stored_data`: `(success, data, message)`. -/
structure FetchResult where
  ok : Bool
  data : Option PyVal
  message : String
  deriving DecidableEq

/-- SQL `LIMIT n` (a negative limit means "unlimited" in SQLite). -/
def sqlLimit (rows : List StoredRecord) (n : Int) : List StoredRecord :=
  if n < 0 then rows else rows.take n.toNat

/-- One row of the `format_type == "json"` output of
`get_stored_data`. -/
def jsonRowOf (r : StoredRecord) : PyVal :=
  .dict (.cons "id" (.int r.id)
    (.cons "data_hash" r.data_hash
      (.cons "raw_data" r.raw_data
        (.cons "processed_data" (r.processed_data.getD .none)
          (.cons "timestamp" (.int r.timestamp)
            (.cons "source_params" (r.source_params.getD .none) .nil))))))

/-- The `format_type == "dataframe"` flattening of one stored row. -/
def dataframeRowsOf (r : StoredRecord) : List PyVal :=
  match r.raw_data with
  | .dict kvs =>
      [.dict ((kvs.set "_id" (.int r.id)).set "_timestamp" (.int r.timestamp))]
  | .list xs =>
      (xs.toList.enum.filterMap fun vi =>
        match vi.2 with
        | .dict kvs =>
            some (.dict ((kvs.set "_id" (.str (intStr r.id ++ "_" ++ intStr vi.1))).set
              "_timestamp" (.int r.timestamp)))
        | _ => Option.none)
  | _ => []

/-- `get_stored_data(session_id, limit, offset, format_type)`.  The SQL
query is built as `SELECT * FROM api_data ORDER BY timestamp DESC`,
appending ` LIMIT ?` only when `limit` is truthy and ` OFFSET ?` only
when `offset > 0`.  SQLite's grammar only admits `OFFSET` after a
`LIMIT` clause, so an offset without a limit raises
`sqlite3.OperationalError`, caught by the function's `except` into a
`(False, None, message)` result.  Record timestamps are strictly
increasing in the model, so `ORDER BY timestamp DESC` is the reverse of
insertion order. -/
def get_stored_data (s : StorageState) (session_id : String) (limit : Option Int)
    (offset : Int) (format_type : String) : FetchResult :=
  match getSessionInfo s session_id with
  | Option.none => ⟨false, Option.none, "存储会话不存在: " ++ session_id⟩
  | some sess =>
      let limitTruthy := match limit with | some n => n ≠ 0 | Option.none => false
      if offset > 0 && !limitTruthy then
        ⟨false, Option.none,
         "获取存储数据失败: near \x22OFFSET\x22: syntax error"⟩
      else
        let ordered := sess.records.reverse
        let afterLimit := if limitTruthy then sqlLimit ordered (limit.getD 0) else ordered
        let rows := if offset > 0 then afterLimit.drop offset.toNat else afterLimit
        if rows.isEmpty then ⟨true, some (.list .nil), "没有找到存储的数据"⟩
        else if format_type = "json" then
          ⟨true, some (.list (PyList.ofList (rows.map jsonRowOf))),
           "获取到 " ++ intStr rows.length ++ " 条记录"⟩
        else if format_type = "dataframe" then
          let flat := rows.flatMap dataframeRowsOf
          ⟨true, some (.list (PyList.ofList flat)),
           "转换为表格格式，包含 " ++ intStr flat.length ++ " 行数据"⟩
        else ⟨false, Option.none, "不支持的格式类型: " ++ format_type⟩

/-- Result of `delete_storage_session`: `(success, message)` plus the
post-call state. -/
structure DeleteResult where
  ok : Bool
  message : String
  state : StorageState
  deriving DecidableEq

/-- `delete_storage_session(session_id)`: fail without touching
anything if the session does not exist; otherwise remove the session's
data file (its records), its `data_operations` rows and its
`storage_sessions` row. -/
def delete_storage_session (s : StorageState) (session_id : String) : DeleteResult :=
  match getSessionInfo s session_id with
  | Option.none => ⟨false, "存储会话不存在: " ++ session_id, s⟩
  | some sess =>
      ⟨true, "存储会话删除成功: " ++ sess.session_name,
       ⟨s.sessions.filter (fun kv => decide (kv.1 ≠ session_id)),
        s.operations.filter (fun op => decide (op.session_id ≠ session_id)),
        s.clock⟩⟩

/-! ### The data transformer (`src/api_connecter_mcp/utils/data_transformer.py`)

`DataTransformer.transform_data` optionally applies a declarative
transform configuration (`_apply_transform_config`) and then converts
the result to one of the supported output formats.  Sub-steps that the
source wraps in their own `try`/`except` (sort, type conversions,
computed fields) are total functions here; sub-steps the source does
not guard (select, rename, filter, limit) are `Except`-valued, and an
error escaping them is caught only by `_apply_transform_config`'s
top-level handler, which reports failure. -/

/-- One entry of `filter_conditions`, with the source's defaults
already read off the condition dict (`operator` defaults to `"eq"`,
`value` to `None`). -/
structure FilterCondition where
  field : String
  operator : String
  value : PyVal
  deriving DecidableEq

/-- Python `field in container` (`in` on a dict tests keys, on a list
tests membership by `==`, on a string tests substring; on anything
else it raises `TypeError`). -/
def pyInTest (container : PyVal) (field : String) : Except String Bool :=
  match container with
  | .dict kvs => .ok (kvs.hasKey field)
  | .list xs => .ok (xs.toList.any (fun v => pyEq v (.str field)))
  | .str s => .ok (pyStrContains s field)
  | _ => .error "TypeError: argument of type is not iterable"

/-- Python `container[field]` for a string subscript: only dicts
support it (lists and strings require integer indices). -/
def pyGetItem (container : PyVal) (field : String) : Except String PyVal :=
  match container with
  | .dict kvs =>
      match kvs.find field with
      | some v => .ok v
      | Option.none => .error "KeyError"
  | _ => .error "TypeError: indices must be integers"

/-- The `elif` chain of `_check_filter_conditions` for a single
condition once the field's value has been fetched: `.ok true` means the
condition lets the record through, `.ok false` means the record is
dropped, `.error` models a raised `TypeError` (e.g. an order comparison
between incomparable types, or `in` with a non-string needle).  An
unrecognized operator matches no branch and lets the record through. -/
def conditionTest (item_value : PyVal) (op : String) (value : PyVal) : Except String Bool :=
  if op = "eq" then .ok (pyEq item_value value)
  else if op = "ne" then .ok (!pyEq item_value value)
  else if op = "gt" then
    match pyGt item_value value with
    | some b => .ok b
    | Option.none => .error "TypeError: unorderable types"
  else if op = "gte" then
    match pyGe item_value value with
    | some b => .ok b
    | Option.none => .error "TypeError: unorderable types"
  else if op = "lt" then
    match pyLt item_value value with
    | some b => .ok b
    | Option.none => .error "TypeError: unorderable types"
  else if op = "lte" then
    match pyLe item_value value with
    | some b => .ok b
    | Option.none => .error "TypeError: unorderable types"
  else if op = "contains" then
    match value with
    | .str needle => .ok (pyStrContains (pyStr item_value) needle)
    | _ => .error "TypeError: in requires string as left operand"
  else if op = "startswith" then .ok (pyStartswith (pyStr item_value) (pyStr value))
  else if op = "endswith" then .ok (pyEndswith (pyStr item_value) (pyStr value))
  else .ok true

/-- `_check_filter_conditions(item, conditions)`: `True` iff every
condition holds; a condition whose field is absent from the record is
skipped (`continue`), i.e. vacuously true.  Exceptions propagate to the
caller (the source has no `try` here). -/
def check_filter_conditions (item : PyVal) : List FilterCondition → Except String Bool
  | [] => .ok true
  | c :: rest => do
      let present ← pyInTest item c.field
      if !present then check_filter_conditions item rest
      else do
        let item_value ← pyGetItem item c.field
        let pass ← conditionTest item_value c.operator c.value
        if pass then check_filter_conditions item rest else .ok false

/-- Whether one filter condition holds of a record (a dict), in the
sense of `_check_filter_conditions`: vacuously true when the field is
absent, otherwise the condition's operator test; `Except.error` when
the test raises. -/
def conditionHolds (kvs : PyDict) (c : FilterCondition) : Except String Bool :=
  match kvs.find c.field with
  | Option.none => .ok true
  | some v => conditionTest v c.operator c.value

/-- `Bool` collapse of `conditionHolds`: did the condition evaluate
without raising and hold? -/
def conditionHoldsB (kvs : PyDict) (c : FilterCondition) : Bool :=
  match conditionHolds kvs c with
  | .ok b => b
  | .error _ => false

/-- Decimal value of a digit run. -/
def digitsToNat (cs : List Char) : Nat :=
  cs.foldl (fun a c => a * 10 + (c.toNat - 48)) 0

/-- Parse between `minD` and `maxD` decimal digits greedily, returning
the value and the remaining characters. -/
def parseDigits (minD maxD : Nat) (cs : List Char) : Option (Nat × List Char) :=
  let ds := (cs.takeWhile (·.isDigit)).take maxD
  if ds.length < minD then Option.none
  else some (digitsToNat ds, cs.drop ds.length)

/-- Expect a literal character. -/
def expectChar (c : Char) : List Char → Option (List Char)
  | c' :: rest => if c' = c then some rest else Option.none
  | [] => Option.none

/-- Gregorian leap year. -/
def isLeapYear (y : Nat) : Bool :=
  y % 4 = 0 && (y % 100 ≠ 0 || y % 400 = 0)

/-- Days in a month. -/
def daysInMonth (y m : Nat) : Nat :=
  if m = 2 then (if isLeapYear y then 29 else 28)
  else if m = 4 || m = 6 || m = 9 || m = 11 then 30
  else 31

/-- `datetime.strptime(value, fmt)` for the date part `%Y<sep>%m<sep>%d`
(or day-first when `dayFirst`): `%Y` matches exactly four digits, `%m`
and `%d` one or two; out-of-range fields and impossible calendar dates
raise `ValueError`, modelled as `Option.none`. -/
def parseDatePart (sep : Char) (dayFirst : Bool) (cs : List Char) :
    Option ((Nat × Nat × Nat) × List Char) := do
  if dayFirst then
    let (d, cs) ← parseDigits 1 2 cs
    let cs ← expectChar sep cs
    let (m, cs) ← parseDigits 1 2 cs
    let cs ← expectChar sep cs
    let (y, cs) ← parseDigits 4 4 cs
    if 1 ≤ m && m ≤ 12 && 1 ≤ d && d ≤ daysInMonth y m then some ((y, m, d), cs)
    else Option.none
  else
    let (y, cs) ← parseDigits 4 4 cs
    let cs ← expectChar sep cs
    let (m, cs) ← parseDigits 1 2 cs
    let cs ← expectChar sep cs
    let (d, cs) ← parseDigits 1 2 cs
    if 1 ≤ m && m ≤ 12 && 1 ≤ d && d ≤ daysInMonth y m then some ((y, m, d), cs)
    else Option.none

/-- `strptime` for one of the four formats the source tries:
`"%Y-%m-%d"`, `"%Y-%m-%d %H:%M:%S"`, `"%Y/%m/%d"`, `"%d/%m/%Y"`,
identified here by separator, day-first flag and whether a time part
follows. -/
def strptimeFmt (sep : Char) (dayFirst withTime : Bool) (s : String) : Option PyVal := do
  let ((y, m, d), cs) ← parseDatePart sep dayFirst s.data
  if withTime then
    let cs ← expectChar ' ' cs
    let (h, cs) ← parseDigits 1 2 cs
    let cs ← expectChar ':' cs
    let (mi, cs) ← parseDigits 1 2 cs
    let cs ← expectChar ':' cs
    let (sec, cs) ← parseDigits 1 2 cs
    if cs.isEmpty && h ≤ 23 && mi ≤ 59 && sec ≤ 61 then some (.datetime y m d h mi sec)
    else Option.none
  else
    if cs.isEmpty then some (.datetime y m d 0 0 0) else Option.none

/-- The `target_type == "datetime"` loop of `_convert_value_type`: try
the formats `["%Y-%m-%d", "%Y-%m-%d %H:%M:%S", "%Y/%m/%d", "%d/%m/%Y"]`
in order, returning the first parse; if none matches, the original
string is returned unchanged. -/
def tryStrptimeFormats (s : String) : Option PyVal :=
  (strptimeFmt '-' false false s).orElse fun _ =>
    (strptimeFmt '-' false true s).orElse fun _ =>
      (strptimeFmt '/' false false s).orElse fun _ =>
        strptimeFmt '/' true false s

/-- Parse an optional exponent suffix (`e`/`E`, optional sign, at least
one digit, end of string). -/
def parseExponent : List Char → Option Int
  | [] => some 0
  | c :: rest =>
      if c = 'e' || c = 'E' then
        match rest with
        | '-' :: ds => do
            let (n, leftover) ← parseDigits 1 1000 ds
            if leftover.isEmpty then some (-(n : Int)) else Option.none
        | '+' :: ds => do
            let (n, leftover) ← parseDigits 1 1000 ds
            if leftover.isEmpty then some (n : Int) else Option.none
        | ds => do
            let (n, leftover) ← parseDigits 1 1000 ds
            if leftover.isEmpty then some (n : Int) else Option.none
      else Option.none

/-- Python `float(s)` on a string: optional surrounding whitespace,
optional sign, decimal digits with an optional fractional part and an
optional exponent (`"inf"`/`"nan"` are not modelled; no property in
this file feeds them in).  `Option.none` models `ValueError`. -/
def pyParseFloat (s : String) : Option Rat :=
  let cs := (pyStrip s).data
  let (sgn, cs) : Rat × List Char :=
    match cs with
    | '-' :: rest => (-1, rest)
    | '+' :: rest => (1, rest)
    | _ => (1, cs)
  let ip := cs.takeWhile (·.isDigit)
  let cs1 := cs.dropWhile (·.isDigit)
  match cs1 with
  | '.' :: rest =>
      let fp := rest.takeWhile (·.isDigit)
      let cs2 := rest.dropWhile (·.isDigit)
      if ip.isEmpty && fp.isEmpty then Option.none
      else do
        let e ← parseExponent cs2
        let mant : Rat := (digitsToNat ip : Rat) + (digitsToNat fp : Rat) / ((10 : Rat) ^ fp.length)
        some (sgn * mant * (10 : Rat) ^ e)
  | _ =>
      if ip.isEmpty then Option.none
      else do
        let e ← parseExponent cs1
        some (sgn * (digitsToNat ip : Rat) * (10 : Rat) ^ e)

/-- Python `float(v)`: numbers pass through by value, strings are
parsed, everything else raises (`Option.none`). -/
def pyFloat : PyVal → Option Rat
  | .str s => pyParseFloat s
  | v => pyNum v

/-- Truncation of a rational toward zero — Python `int(float)`. -/
def ratTrunc (q : Rat) : Int := q.num.tdiv (q.den : Int)

/-- ASCII lowercase of a string — Python `str.lower()` for the ASCII
inputs reaching it here. -/
def pyLowerAscii (s : String) : String :=
  ⟨s.data.map fun c => if 'A' ≤ c && c ≤ 'Z' then Char.ofNat (c.toNat + 32) else c⟩

/-- `_convert_value_type(value, target_type)`: per-value coercion to
`int`/`float`/`str`/`bool`/`datetime`; `None` maps to `None` for the
first four targets; any failure inside is caught by the function's own
`try` and returns the value unchanged; an unknown target returns the
value unchanged. -/
def convert_value_type (value : PyVal) (target_type : String) : PyVal :=
  if target_type = "int" then
    match value with
    | .none => .none
    | v => match pyFloat v with
           | some q => .int (ratTrunc q)
           | Option.none => v
  else if target_type = "float" then
    match value with
    | .none => .none
    | v => match pyFloat v with
           | some q => .float q
           | Option.none => v
  else if target_type = "str" then
    match value with
    | .none => .none
    | v => .str (pyStr v)
  else if target_type = "bool" then
    match value with
    | .str s => .bool (pyLowerAscii s = "true" || pyLowerAscii s = "1" ||
        pyLowerAscii s = "yes" || pyLowerAscii s = "on")
    | .none => .none
    | v => .bool (pyTruthy v)
  else if target_type = "datetime" then
    match value with
    | .str s => (tryStrptimeFormats s).getD (.str s)
    | v => v
  else value

/-- `_evaluate_expression(item, expression)`: `${field}` substitutes the
field's value; an expression containing `+` splits on `+` and sums the
parts as floats (`${field}` parts default the field to `0`); an
expression containing `||` concatenates the parts as strings
(`${field}` parts default to `""`, literals are stripped of quote
characters); anything else — or any raise — yields the expression text
itself. -/
def evaluate_expression (item : PyDict) (expression : String) : PyVal :=
  if pyStartswith expression "$\x7b" && pyEndswith expression "\x7d" then
    let field : String := ⟨(expression.data.drop 2).dropLast⟩
    (item.find field).getD .none
  else if strHasChar expression '+' then
    let parts := (splitOnAux '+' [] expression.data []).map fun cs => (⟨cs⟩ : String)
    let vals := parts.map fun part =>
      let part := pyStrip part
      if pyStartswith part "$\x7b" && pyEndswith part "\x7d" then
        let field : String := ⟨(part.data.drop 2).dropLast⟩
        pyFloat ((item.find field).getD (.int 0))
      else
        pyParseFloat part
    match vals.foldl (fun acc v => do let a ← acc; let b ← v; pure (a + b)) (some 0) with
    | some q => .float q
    | Option.none => .str expression
  else if pyStrContains expression "||" then
    let parts := (splitOnAux '|' ['|'] expression.data []).map fun cs => (⟨cs⟩ : String)
    .str (parts.foldl (fun acc part =>
      let part := pyStrip part
      if pyStartswith part "$\x7b" && pyEndswith part "\x7d" then
        let field : String := ⟨(part.data.drop 2).dropLast⟩
        acc ++ pyStr ((item.find field).getD (.str ""))
      else
        acc ++ pyStripChars part ['"', '\'']) "")
  else .str expression

/-- The per-dict loop of `_apply_type_conversions`: for every
`(field, target_type)` conversion, in order, coerce the field's value
if the field is present (`_convert_value_type` never raises). -/
def applyConvDict (kvs : PyDict) (conversions : List (String × String)) : PyDict :=
  conversions.foldl
    (fun d ft =>
      match d.find ft.1 with
      | some v => d.set ft.1 (convert_value_type v ft.2)
      | Option.none => d)
    kvs

/-- Type conversions applied to one element of a list: a dict is
converted; a non-dict raises at the first conversion (`field in item`
raises for non-iterables; for lists and strings the membership test can
succeed, upon which the string subscript raises). -/
def typeConvItem (conversions : List (String × String)) (item : PyVal) : Except String PyVal :=
  match item with
  | .dict kvs => .ok (.dict (applyConvDict kvs conversions))
  | .list xs =>
      if conversions.any (fun ft => xs.toList.any (fun v => pyEq v (.str ft.1))) then
        .error "TypeError: list indices must be integers"
      else .ok item
  | .str s =>
      if conversions.any (fun ft => pyStrContains s ft.1) then
        .error "TypeError: string indices must be integers"
      else .ok item
  | v =>
      if conversions.isEmpty then .ok v
      else .error "TypeError: argument is not iterable"

/-- The list loop of `_apply_type_conversions`, with the in-place
mutation semantics of the source: items are converted left to right;
if one raises, the exception is caught by the function's own `try` and
the (partially mutated) list is returned — the failing item and
everything after it stay untouched. -/
def typeConvLoop (conversions : List (String × String)) : List PyVal → List PyVal
  | [] => []
  | item :: rest =>
      match typeConvItem conversions item with
      | .ok item2 => item2 :: typeConvLoop conversions rest
      | .error _ => item :: rest

/-- `_apply_type_conversions(data, conversions)`: never raises (its own
`try` catches everything and returns the data as mutated so far). -/
def apply_type_conversions (data : PyVal) (conversions : List (String × String)) : PyVal :=
  match data with
  | .dict kvs => .dict (applyConvDict kvs conversions)
  | .list (.cons x xs) =>
      match x with
      | .dict _ => .list (PyList.ofList (typeConvLoop conversions (x :: xs.toList)))
      | _ => .list (.cons x xs)
  | v => v

/-- The per-dict loop of `_add_computed_fields`: each computed field is
written into the dict before the next expression is evaluated (the
source mutates `item` in place). -/
def applyComputedDict (kvs : PyDict) (computed : List (String × String)) : PyDict :=
  computed.foldl (fun d fe => d.set fe.1 (evaluate_expression d fe.2)) kvs

/-- Computed fields applied to one element of a list: a non-dict item
raises on the item assignment (when there is at least one computed
field). -/
def computedItem (computed : List (String × String)) (item : PyVal) : Except String PyVal :=
  match item with
  | .dict kvs => .ok (.dict (applyComputedDict kvs computed))
  | v =>
      if computed.isEmpty then .ok v
      else .error "TypeError: item assignment"

/-- The list loop of `_add_computed_fields`, mirroring in-place
mutation with the exception caught at the function level. -/
def computedLoop (computed : List (String × String)) : List PyVal → List PyVal
  | [] => []
  | item :: rest =>
      match computedItem computed item with
      | .ok item2 => item2 :: computedLoop computed rest
      | .error _ => item :: rest

/-- `_add_computed_fields(data, computed)`: never raises (its own `try`
re-returns data on any exception). -/
def add_computed_fields (data : PyVal) (computed : List (String × String)) : PyVal :=
  match data with
  | .dict kvs => .dict (applyComputedDict kvs computed)
  | .list (.cons x xs) =>
      match x with
      | .dict _ => .list (PyList.ofList (computedLoop computed (x :: xs.toList)))
      | _ => .list (.cons x xs)
  | v => v

/-- The `select_fields` dict comprehension: keep only the named keys
(`k in fields` is list membership). -/
def selectDictEntries (kvs : PyDict) (fields : List String) : PyDict :=
  PyDict.ofEntries (kvs.toEntries.filter fun kv => fields.contains kv.1)

/-- The `select_fields` step, guarded by
`isinstance(result_data, (list, dict))`: a dict is filtered; a
non-empty list whose first element is a dict has every element
filtered — a later non-dict element raises `AttributeError`
(`item.items()`), which nothing catches before
`_apply_transform_config`'s top-level handler; anything else passes
through untouched. -/
def select_fields_step (data : PyVal) (fields : List String) : Except String PyVal :=
  match data with
  | .dict kvs => .ok (.dict (selectDictEntries kvs fields))
  | .list (.cons x xs) =>
      match x with
      | .dict _ =>
          (x :: xs.toList).mapM (fun (item : PyVal) =>
            match item with
            | .dict kvs => Except.ok (PyVal.dict (selectDictEntries kvs fields))
            | _ => Except.error "AttributeError: object has no attribute items") |>.map
            (fun items => PyVal.list (PyList.ofList items))
      | _ => .ok (.list (.cons x xs))
  | v => .ok v

/-- The `rename_fields` dict comprehension:
`{rename_map.get(k, k): v for k, v in item.items()}`. -/
def renameDictEntries (kvs : PyDict) (rename_map : List (String × String)) : PyDict :=
  kvs.toEntries.foldl (fun d kv => d.set ((rename_map.lookup kv.1).getD kv.1) kv.2) .nil

/-- The `rename_fields` step; shaped exactly like `select_fields_step`
(including the `AttributeError` on a non-dict element after a dict
head). -/
def rename_fields_step (data : PyVal) (rename_map : List (String × String)) : Except String PyVal :=
  match data with
  | .dict kvs => .ok (.dict (renameDictEntries kvs rename_map))
  | .list (.cons x xs) =>
      match x with
      | .dict _ =>
          (x :: xs.toList).mapM (fun (item : PyVal) =>
            match item with
            | .dict kvs => Except.ok (PyVal.dict (renameDictEntries kvs rename_map))
            | _ => Except.error "AttributeError: object has no attribute items") |>.map
            (fun items => PyVal.list (PyList.ofList items))
      | _ => .ok (.list (.cons x xs))
  | v => .ok v

/-- The record loop of the `filter_conditions` step: keep the records
`_check_filter_conditions` lets through; an exception raised by the
check aborts the step (and, since nothing catches it below the
top-level handler, the whole transform). -/
def filterLoop (conditions : List FilterCondition) : List PyVal → Except String (List PyVal)
  | [] => .ok []
  | item :: rest => do
      let keep ← check_filter_conditions item conditions
      let tail ← filterLoop conditions rest
      .ok (if keep then item :: tail else tail)

/-- The `filter_conditions` step, guarded by
`isinstance(result_data, list)`. -/
def filter_conditions_step (data : PyVal) (conditions : List FilterCondition) :
    Except String PyVal :=
  match data with
  | .list xs => (filterLoop conditions xs.toList).map fun kept => PyVal.list (PyList.ofList kept)
  | v => .ok v

/-- The sort key of the source's
`lambda x: x.get(sort_field, 0) if isinstance(x, dict) else x`. -/
def sortKeyOf (field : String) (x : PyVal) : PyVal :=
  match x with
  | .dict kvs => (kvs.find field).getD (.int 0)
  | v => v

/-- "`x` may stay before `y`" for the sort: key of `x` not after key of
`y` (not before, for a descending sort).  The incomparable case is
arbitrary (`true`); it is only ever reached under the guard in
`sort_by_step` that rules it out. -/
def sortBefore (field : String) (desc : Bool) (x y : PyVal) : Bool :=
  match pyCompare (sortKeyOf field x) (sortKeyOf field y) with
  | some o => if desc then decide (o ≠ .lt) else decide (o ≠ .gt)
  | Option.none => true

/-- The sort relation as a decidable `Prop`, for `List.insertionSort`. -/
def pySortRel (field : String) (desc : Bool) (x y : PyVal) : Prop :=
  sortBefore field desc x y = true

instance (field : String) (desc : Bool) : DecidableRel (pySortRel field desc) :=
  fun x y => inferInstanceAs (Decidable (sortBefore field desc x y = true))

/-- The `sort_by` step, guarded by `isinstance(result_data, list)` and
wrapped in its own `try`/`except` in the source: when every pair of
sort keys is comparable the records are stably sorted (Python's
`sorted` and insertion sort are both stable, and stable sorting is
extensionally unique, so `List.insertionSort` computes exactly
`sorted`'s output; `reverse=True` flips the comparison, not the
output); when some pair of keys is incomparable `sorted` raises
`TypeError`, the handler logs and the step is skipped.  (Python's
timsort evaluates only some comparisons, so it can miss an
incomparable non-adjacent pair; since comparability of the values
modelled here is transitive along comparable chains, the all-pairs
guard coincides with "some evaluated comparison raises" on every list
whose sort would observe the incomparability.) -/
def sort_by_step (data : PyVal) (field : String) (desc : Bool) : PyVal :=
  match data with
  | .list xs =>
      let items := xs.toList
      if items.all (fun a => items.all fun b =>
          (pyCompare (sortKeyOf field a) (sortKeyOf field b)).isSome) then
        .list (PyList.ofList (List.insertionSort (pySortRel field desc) items))
      else .list xs
  | v => v

/-- Python `xs[:n]` (a negative `n` drops elements from the end). -/
def pySliceTo (xs : List PyVal) (n : Int) : List PyVal :=
  if 0 ≤ n then xs.take n.toNat else xs.take (xs.length - (-n).toNat)

/-- The `limit` step, guarded by `isinstance(result_data, list)`. -/
def limit_step (data : PyVal) (n : Int) : PyVal :=
  match data with
  | .list xs => .list (PyList.ofList (pySliceTo xs.toList n))
  | v => v

/-- A transform configuration, with an `Option` per spec key
(`Option.none` = key absent from the config dict).  `sort_desc`
carries the source's `config.get("sort_desc", False)` default. -/
structure TransformConfig where
  select_fields : Option (List String)
  rename_fields : Option (List (String × String))
  filter_conditions : Option (List FilterCondition)
  sort_by : Option String
  sort_desc : Bool
  limit : Option Int
  type_conversions : Option (List (String × String))
  computed_fields : Option (List (String × String))
  deriving DecidableEq

/-- The configuration with no keys. -/
def emptyConfig : TransformConfig :=
  ⟨Option.none, Option.none, Option.none, Option.none, false, Option.none,
   Option.none, Option.none⟩

/-- `_apply_transform_config(data, config)`: the seven operations in
their fixed source order — select, rename, filter, sort, limit, type
conversions, computed fields — each applied only when its key is
present.  Sort, type conversions and computed fields carry their own
`try`/`except` and never raise; an exception escaping select, rename
or filter reaches this function's top-level handler, which returns
`(False, data, message)` with `data` the original argument. -/
def apply_transform_config (data : PyVal) (config : TransformConfig) :
    Bool × PyVal × String :=
  match (do
    let r1 ← match config.select_fields with
      | some fields => select_fields_step data fields
      | Option.none => Except.ok data
    let r2 ← match config.rename_fields with
      | some rename_map => rename_fields_step r1 rename_map
      | Option.none => Except.ok r1
    let r3 ← match config.filter_conditions with
      | some conditions => filter_conditions_step r2 conditions
      | Option.none => Except.ok r2
    let r4 : PyVal := match config.sort_by with
      | some field => sort_by_step r3 field config.sort_desc
      | Option.none => r3
    let r5 : PyVal := match config.limit with
      | some n => limit_step r4 n
      | Option.none => r4
    let r6 : PyVal := match config.type_conversions with
      | some conversions => apply_type_conversions r5 conversions
      | Option.none => r5
    let r7 : PyVal := match config.computed_fields with
      | some computed => add_computed_fields r6 computed
      | Option.none => r6
    Except.ok r7 : Except String PyVal) with
  | .ok r => (true, r, "转换配置应用成功")
  | .error e => (false, data, "应用转换配置失败: " ++ e)

/-- `n` spaces. -/
def spacesStr (n : Nat) : String := ⟨List.replicate n ' '⟩

/-- JSON string quoting (escapes quotes, backslashes and newlines; the
full JSON control-character escape table is not spelled out — no
property in this file evaluates it on such input). -/
def jsonQuote (s : String) : String :=
  "\"" ++ ⟨s.data.foldr (fun c acc =>
    (if c = '"' then ['\\', '"']
     else if c = '\\' then ['\\', '\\']
     else if c = '\n' then ['\\', 'n']
     else [c]) ++ acc) []⟩ ++ "\""

mutual

/-- `json.dumps(v, indent=2, ensure_ascii=False, default=str)` at
nesting level `lvl`: containers spread over lines with two-space
indentation; `default=str` renders datetimes through `str`. -/
def jsonDumps (lvl : Nat) : PyVal → String
  | .none => "null"
  | .bool b => if b then "true" else "false"
  | .int n => intStr n
  | .float q => floatStr q
  | .str s => jsonQuote s
  | .datetime y mo d h mi sec => jsonQuote (pyStr (.datetime y mo d h mi sec))
  | .list .nil => "[]"
  | .list (.cons x xs) =>
      "[\n" ++ jsonDumpsItems (lvl + 1) (.cons x xs) ++ "\n" ++ spacesStr (2 * lvl) ++ "]"
  | .dict .nil => "\x7b\x7d"
  | .dict (.cons k v kvs) =>
      "\x7b\n" ++ jsonDumpsEntries (lvl + 1) (.cons k v kvs) ++ "\n" ++
        spacesStr (2 * lvl) ++ "\x7d"
termination_by structural v => v

def jsonDumpsItems (lvl : Nat) : PyList → String
  | .nil => ""
  | .cons v .nil => spacesStr (2 * lvl) ++ jsonDumps lvl v
  | .cons v rest =>
      spacesStr (2 * lvl) ++ jsonDumps lvl v ++ ",\n" ++ jsonDumpsItems lvl rest
termination_by structural xs => xs

def jsonDumpsEntries (lvl : Nat) : PyDict → String
  | .nil => ""
  | .cons k v .nil => spacesStr (2 * lvl) ++ jsonQuote k ++ ": " ++ jsonDumps lvl v
  | .cons k v rest =>
      spacesStr (2 * lvl) ++ jsonQuote k ++ ": " ++ jsonDumps lvl v ++ ",\n" ++
        jsonDumpsEntries lvl rest
termination_by structural kvs => kvs

end

/-- The output of one `transform_data` call: textual for
`json`/`csv`/`xml`, structured for `dataframe`/`list`. -/
inductive TransformOutput where
  | text (s : String)
  | value (v : PyVal)
  deriving DecidableEq

/-- `_to_json(data)`. -/
def to_json (data : PyVal) : Bool × Option TransformOutput × String :=
  (true, some (.text (jsonDumps 0 data)), "转换为JSON成功")

/-- The text the `csv` module writes for one cell: `None` becomes the
empty string, everything else goes through `str`. -/
def csvCell : PyVal → String
  | .none => ""
  | v => pyStr v

/-- Minimal CSV quoting (`QUOTE_MINIMAL`): quote when the text holds a
comma, quote or line break, doubling inner quotes. -/
def csvField (s : String) : String :=
  if strHasChar s ',' || strHasChar s '"' || strHasChar s '\n' || strHasChar s '\r' then
    "\"" ++ ⟨s.data.foldr (fun c acc =>
      (if c = '"' then ['"', '"'] else [c]) ++ acc) []⟩ ++ "\""
  else s

/-- One `DictWriter.writerow` for a dict row: raises `ValueError` when
the row holds a key outside the header's `fieldnames`; missing keys
fill with the empty `restval`. -/
def csvRowOf (fieldnames : List String) (kvs : PyDict) : Except String String :=
  if kvs.keys.all (fieldnames.contains ·) then
    .ok (String.intercalate "," (fieldnames.map fun k =>
      csvField (csvCell ((kvs.find k).getD .none))))
  else .error "ValueError: dict contains fields not in fieldnames"

/-- `DictWriter.writerows` over the record list: a non-dict row raises
`AttributeError`. -/
def csvRows (fieldnames : List String) : List PyVal → Except String (List String)
  | [] => .ok []
  | item :: rest => do
      let row ← match item with
        | .dict kvs => csvRowOf fieldnames kvs
        | _ => Except.error "AttributeError: object has no attribute keys"
      let tail ← csvRows fieldnames rest
      .ok (row :: tail)

/-- `_to_csv(data)`: a non-empty list headed by a dict takes its header
from the first record's keys; a single dict writes one row; anything
else is "not suitable for CSV".  The `csv` module's default line
terminator is `"\r\n"`. -/
def to_csv (data : PyVal) : Bool × Option TransformOutput × String :=
  match data with
  | .list (.cons x xs) =>
      match x with
      | .dict first =>
          let fieldnames := first.keys
          (match csvRows fieldnames (PyVal.dict first :: xs.toList) with
           | .ok rows =>
               (true, some (.text (String.intercalate "," (fieldnames.map csvField) ++ "\r\n" ++
                 String.intercalate "\r\n" rows ++ "\r\n")), "转换为CSV成功")
           | .error e => (false, Option.none, "转换为CSV失败: " ++ e))
      | _ => (false, Option.none, "数据格式不适合转换为CSV")
  | .dict kvs =>
      let fieldnames := kvs.keys
      (match csvRowOf fieldnames kvs with
       | .ok row =>
           (true, some (.text (String.intercalate "," (fieldnames.map csvField) ++ "\r\n" ++
             row ++ "\r\n")), "转换为CSV成功")
       | .error e => (false, Option.none, "转换为CSV失败: " ++ e))
  | _ => (false, Option.none, "数据格式不适合转换为CSV")

/-- `ElementTree` serialization of an element with the given rendered
inner content: an element with no children and no text renders
self-closed.  (Text escaping of `&`, `<`, `>` is not spelled out; no
property in this file evaluates it on such input.) -/
def xmlElem (tag inner : String) : String :=
  if inner = "" then "<" ++ tag ++ " />"
  else "<" ++ tag ++ ">" ++ inner ++ "</" ++ tag ++ ">"

mutual

/-- `add_to_element(element, key, value)` of `_to_xml`, rendered: a
dict value nests; a list value emits one sibling element per item
(each named `key`); a scalar becomes an element whose text is
`str(value)` — the text is always a string, so even an empty string
renders with explicit open/close tags. -/
def xmlEntry (key : String) : PyVal → String
  | .dict kvs => xmlElem key (xmlEntriesOf kvs)
  | .list xs => xmlListEntries key xs
  | v => "<" ++ key ++ ">" ++ pyStr v ++ "</" ++ key ++ ">"
termination_by structural v => v

def xmlEntriesOf : PyDict → String
  | .nil => ""
  | .cons k v rest => xmlEntry k v ++ xmlEntriesOf rest
termination_by structural kvs => kvs

def xmlListEntries (key : String) : PyList → String
  | .nil => ""
  | .cons item rest =>
      (match item with
       | .dict kvs => xmlElem key (xmlEntriesOf kvs)
       | v => "<" ++ key ++ ">" ++ pyStr v ++ "</" ++ key ++ ">") ++
        xmlListEntries key rest
termination_by structural xs => xs

end

/-- The indexed loop of `_to_xml` for a top-level list:
`add_to_element(root, f"item_\x7bi\x7d", item)`. -/
def xmlIndexedEntries (i : Nat) : PyList → String
  | .nil => ""
  | .cons item rest =>
      xmlEntry ("item_" ++ intStr i) item ++ xmlIndexedEntries (i + 1) rest

/-- `_to_xml(data)`. -/
def to_xml (data : PyVal) : Bool × Option TransformOutput × String :=
  let rendered :=
    match data with
    | .dict kvs => xmlElem "root" (xmlEntriesOf kvs)
    | .list xs => xmlElem "root" (xmlIndexedEntries 0 xs)
    | v => "<root>" ++ pyStr v ++ "</root>"
  (true, some (.text rendered), "转换为XML成功")

/-- `_to_dataframe(data)`: a list-of-dicts passes through; a dict wraps
in a one-element list; a plain list wraps each item as
`\x7bvalue, index\x7d`; anything else as `[\x7bvalue\x7d]`. -/
def to_dataframe (data : PyVal) : Bool × Option TransformOutput × String :=
  match data with
  | .list (.cons x xs) =>
      match x with
      | .dict _ => (true, some (.value (.list (.cons x xs))), "转换为表格格式成功")
      | _ =>
          (true, some (.value (.list (PyList.ofList ((x :: xs.toList).enum.map fun iv =>
            PyVal.dict (.cons "value" iv.2 (.cons "index" (.int iv.1) .nil)))))),
           "转换为表格格式成功")
  | .dict kvs => (true, some (.value (.list (.cons (.dict kvs) .nil))), "转换为表格格式成功")
  | .list .nil => (true, some (.value (.list .nil)), "转换为表格格式成功")
  | v => (true, some (.value (.list (.cons (.dict (.cons "value" v .nil)) .nil))),
      "转换为表格格式成功")

/-- `_to_list(data)`. -/
def to_list (data : PyVal) : Bool × Option TransformOutput × String :=
  match data with
  | .list xs => (true, some (.value (.list xs)), "数据已是列表格式")
  | .dict kvs => (true, some (.value (.list (.cons (.dict kvs) .nil))), "转换为列表成功")
  | v => (true, some (.value (.list (.cons v .nil))), "转换为列表成功")

/-- The transformer's supported output formats. -/
def supported_formats : List String := ["json", "csv", "xml", "dataframe", "list"]

/-- `transform_data(data, output_format, transform_config)`: reject
unsupported formats; apply the transform configuration when one is
given (a falsy — absent or empty — configuration skips the step, which
is `transform_config = Option.none` here), aborting with
`(False, None, message)` when `_apply_transform_config` reports
failure; then convert to the requested format. -/
def transform_data (data : PyVal) (output_format : String)
    (transform_config : Option TransformConfig) : Bool × Option TransformOutput × String :=
  if !(supported_formats.contains output_format) then
    (false, Option.none, "不支持的输出格式: " ++ output_format)
  else
    let applied : Bool × PyVal × String :=
      match transform_config with
      | some config => apply_transform_config data config
      | Option.none => (true, data, "")
    if !applied.1 then (false, Option.none, applied.2.2)
    else
      let d := applied.2.1
      if output_format = "json" then to_json d
      else if output_format = "csv" then to_csv d
      else if output_format = "xml" then to_xml d
      else if output_format = "dataframe" then to_dataframe d
      else to_list d

/-! ### The connector's retry loop
(`src/api_connecter_mcp/config/api_connector.py`)

`_send_request_with_retry` loops `for attempt in range(max_retries + 1)`
around `self.session.request(**kwargs)`.  The network is modelled as an
oracle `attempts : Nat → AttemptOutcome` giving the outcome of each
attempt; the loop's observable behaviour is the returned triple plus
the number of requests issued and the sequence of `time.sleep` delays.
The defaults read off `default_settings` are `max_retries = 3` and
`retry_delay = 1`. -/

/-- What one `session.request` call did. -/
inductive AttemptOutcome where
  | response (status : Nat)
  | timeout
  | connectionError (msg : String)
  | otherException (msg : String)
  deriving DecidableEq

/-- The default `max_retries`. -/
def defaultMaxRetries : Nat := 3

/-- The default `retry_delay` (seconds, applied as a fixed delay). -/
def defaultRetryDelay : Nat := 1

/-- The observable outcome of `_send_request_with_retry`: the
`(success, message, data)` triple (data reduced to the final response's
status, when any), the number of attempts issued, and the slept
delays in order. -/
structure RetryTrace where
  ok : Bool
  message : String
  data : Option Nat
  attemptsMade : Nat
  sleeps : List Nat
  deriving DecidableEq

/-- `_parse_response`'s success flag: `False` for any status ≥ 400
(the body parse never makes a < 400 response fail — a decode problem
only attaches a `parse_error` marker). -/
def parseOk (status : Nat) : Bool := status < 400

/-- The message `_parse_response` produces (error bodies abbreviated). -/
def parseMessage (status : Nat) : String :=
  if status < 400 then "请求成功" else "HTTP错误 " ++ intStr status

/-- The loop body of `_send_request_with_retry`, with `remaining` the
number of retries still allowed (initially `max_retries`), `i` the
0-based index of the attempt about to be issued, and accumulated
attempt/sleep counts.  A response with status < 500 returns
immediately (success, or client error — not retried); a status ≥ 500,
a timeout or a connection error retries after `time.sleep(retry_delay)`
while retries remain, else falls out of the loop with the last error;
any other exception breaks out at once. -/
def retryGo (attempts : Nat → AttemptOutcome) (retry_delay : Nat) :
    Nat → Nat → Nat → List Nat → RetryTrace
  | remaining, i, made, sleeps =>
    match attempts i with
    | .response status =>
        if status < 500 then
          ⟨parseOk status, parseMessage status, some status, made + 1, sleeps⟩
        else
          match remaining with
          | 0 => ⟨false, parseMessage status, Option.none, made + 1, sleeps⟩
          | r + 1 => retryGo attempts retry_delay r (i + 1) (made + 1) (sleeps ++ [retry_delay])
    | .timeout =>
        match remaining with
        | 0 => ⟨false, "请求超时", Option.none, made + 1, sleeps⟩
        | r + 1 => retryGo attempts retry_delay r (i + 1) (made + 1) (sleeps ++ [retry_delay])
    | .connectionError m =>
        match remaining with
        | 0 => ⟨false, "连接错误: " ++ m, Option.none, made + 1, sleeps⟩
        | r + 1 => retryGo attempts retry_delay r (i + 1) (made + 1) (sleeps ++ [retry_delay])
    | .otherException m =>
        ⟨false, "请求异常: " ++ m, Option.none, made + 1, sleeps⟩

/-- `_send_request_with_retry` itself. -/
def send_request_with_retry (attempts : Nat → AttemptOutcome)
    (max_retries retry_delay : Nat) : RetryTrace :=
  retryGo attempts retry_delay max_retries 0 0 []

/-- Is an attempt outcome one the loop retries (status ≥ 500, timeout,
or connection error)? -/
def retryable : AttemptOutcome → Bool
  | .response status => 500 ≤ status
  | .timeout => true
  | .connectionError _ => true
  | .otherException _ => false

/-! ### The connector's XML decoder

`_xml_to_dict` converts an `ElementTree` element recursively.  The
element tree (tag, attributes, text before the first child, children)
is modelled by `XmlElem`; parsing of XML text into the tree is
`ET.fromstring` and stays external. -/

mutual

/-- An `ElementTree` element: `text` is the element's text content
(`None` and `""` behave identically in the decoder, both being falsy,
so a missing text is the empty string). -/
inductive XmlElem where
  | mk (tag : String) (attrib : List (String × String)) (text : String) (children : XmlForest)
  deriving DecidableEq

/-- A sequence of sibling elements. -/
inductive XmlForest where
  | nil
  | cons (e : XmlElem) (rest : XmlForest)
  deriving DecidableEq

end

/-- The tag of an element. -/
def XmlElem.tag : XmlElem → String
  | .mk t _ _ _ => t

/-- Append a value to a `PyList`. -/
def PyList.push : PyList → PyVal → PyList
  | .nil, v => .cons v .nil
  | .cons x rest, v => .cons x (rest.push v)

/-- The repeated-tag collapse of `_xml_to_dict`: insert one child's
value under its tag — a fresh tag binds directly, a second occurrence
wraps the existing value into a list, further occurrences append. -/
def addChildValue (d : PyDict) (tag : String) (data : PyVal) : PyDict :=
  match d.find tag with
  | Option.none => d.set tag data
  | some (.list xs) => d.set tag (.list (xs.push data))
  | some old => d.set tag (.list (.cons old (.cons data .nil)))

/-- Python `result.update(child_dict)`. -/
def PyDict.update (d other : PyDict) : PyDict :=
  other.toEntries.foldl (fun acc kv => acc.set kv.1 kv.2) d

mutual

/-- `element_to_dict(element)`: attributes become an `"@attributes"`
map; children fold into a dict with repeated tags collapsed into
lists; a leaf with only (non-blank) text returns the stripped text
itself; a mixed element keeps its stripped text under `"#text"`; an
element with nothing at all returns `None`. -/
def element_to_dict : XmlElem → PyVal
  | .mk _ attrib text children =>
      let withAttrs : PyDict :=
        match attrib with
        | [] => .nil
        | a :: rest =>
            .cons "@attributes"
              (.dict (PyDict.ofEntries (((a :: rest).map fun kv => (kv.1, PyVal.str kv.2))))) .nil
      let result := withAttrs.update (childrenToDict children)
      let stripped := pyStrip text
      if stripped ≠ "" then
        if result ≠ .nil then .dict (result.set "#text" (.str stripped))
        else .str stripped
      else
        if result = .nil then .none else .dict result
termination_by structural e => e

/-- The child loop of `element_to_dict`, building `child_dict`. -/
def childrenToDict : XmlForest → PyDict
  | .nil => .nil
  | .cons child rest => childrenToDictAux (addChildValue .nil child.tag (element_to_dict child)) rest
termination_by structural f => f

/-- The same child loop with an accumulator. -/
def childrenToDictAux (acc : PyDict) : XmlForest → PyDict
  | .nil => acc
  | .cons child rest => childrenToDictAux (addChildValue acc child.tag (element_to_dict child)) rest
termination_by structural f => f

end

/-- `_xml_to_dict(xml_string)` applied to the already-parsed root
element: `\x7broot.tag: element_to_dict(root)\x7d`. -/
def xml_to_dict (root : XmlElem) : PyVal :=
  .dict (.cons root.tag (element_to_dict root) .nil)

/-- The `total_records` column of a session, if the session exists. -/
def sessionTotalRecords (s : StorageState) (session_id : String) : Option Nat :=
  (getSessionInfo s session_id).map (·.total_records)

/-- The rows of a session's data file, if the session exists. -/
def sessionRecordList (s : StorageState) (session_id : String) : Option (List StoredRecord) :=
  (getSessionInfo s session_id).map (·.records)

/-- How many rows of a session carry the given content hash, if the
session exists. -/
def sessionHashCount (s : StorageState) (session_id : String) (h : PyVal) : Option Nat :=
  (sessionRecordList s session_id).map fun rs => rs.countP fun r => decide (r.data_hash = h)

/-! ### Concrete instances used by witnesses and counterexamples -/

/-- The record `\x7ba: 2, b: 1\x7d` of the spec's transform-ordering
example. -/
def recA2B1 : PyVal := .dict (.cons "a" (.int 2) (.cons "b" (.int 1) .nil))

/-- The record `\x7ba: 1, b: 2\x7d` of the spec's transform-ordering
example. -/
def recA1B2 : PyVal := .dict (.cons "a" (.int 1) (.cons "b" (.int 2) .nil))

/-- The spec's transform-ordering configuration
`\x7bfilter: a>0, sort_by: a, limit: 1\x7d`. -/
def orderingConfig : TransformConfig :=
  { emptyConfig with
      filter_conditions := some [⟨"a", "gt", .int 0⟩],
      sort_by := some "a",
      limit := some 1 }

/-- A record whose `a` field is a string, incomparable with `0`. -/
def recAStr : PyVal := .dict (.cons "a" (.str "x") .nil)

/-- A configuration with only the `a > 0` filter. -/
def filterOnlyConfig : TransformConfig :=
  { emptyConfig with filter_conditions := some [⟨"a", "gt", .int 0⟩] }

/-- A configuration with only `sort_by: a`. -/
def sortOnlyConfig : TransformConfig := { emptyConfig with sort_by := some "a" }

/-- A two-record list whose `a` keys (a string and an int) are
incomparable, so sorting it raises. -/
def mixedKeyList : PyVal := .list (.cons recAStr (.cons recA1B2 .nil))

/-- The element tree of `<root><item>1</item><item>2</item></root>`. -/
def xmlTwoItems : XmlElem :=
  .mk "root" [] "" (.cons (.mk "item" [] "1" .nil) (.cons (.mk "item" [] "2" .nil) .nil))

/-- An element with one attribute and nothing else. -/
def xmlWithAttr : XmlElem := .mk "e" [("id", "7")] "" .nil

/-- A mixed element: one child plus non-blank text. -/
def xmlMixed : XmlElem := .mk "m" [] " hi " (.cons (.mk "c" [] "1" .nil) .nil)

/-- An empty fresh session used by concrete storage states. -/
def freshSession : SessionInfo :=
  ⟨"s", Option.none, "api", "ep", 0, 0, 0, Option.none, [], 1⟩

/-- A storage state holding one empty session `"sid1"`. -/
def oneSessionState : StorageState := ⟨[("sid1", freshSession)], [], 5⟩

/-- `\x7bb: 1, a: 2\x7d` — `keyOrderEqv`-equal to `dupValue` below. -/
def permValueBA : PyVal := .dict (.cons "b" (.int 1) (.cons "a" (.int 2) .nil))

/-- `\x7ba: 2, b: 1\x7d` with the keys in the other order. -/
def permValueAB : PyVal := .dict (.cons "a" (.int 2) (.cons "b" (.int 1) .nil))

/-- `oneSessionState` after `permValueBA` has been appended once: the
session already holds a record with that content hash. -/
def dupState : StorageState :=
  (store_api_data oneSessionState "sid1" permValueBA Option.none Option.none).state

/-- An attempt oracle: 503 on the first attempt, 200 afterwards. -/
def oracle503Then200 : Nat → AttemptOutcome :=
  fun i => if i = 0 then .response 503 else .response 200

theorem charEqOfToNat {a b : Char} (h : a.toNat = b.toNat) : a = b :=
  Char.ext (UInt32.ext h)

theorem strLtL_irrefl : ∀ l : List Char, strLtL l l = false
  | [] => rfl
  | c :: rest => by simp [strLtL, strLtL_irrefl rest]

theorem strLtL_asymm : ∀ a b, strLtL a b = true → strLtL b a = false
  | [], [], h => Bool.noConfusion h
  | [], _ :: _, _ => rfl
  | _ :: _, [], h => Bool.noConfusion h
  | a :: as, b :: bs, h => by
      by_cases h1 : a.toNat < b.toNat
      · simp [strLtL, h1, Nat.lt_asymm h1]
      · by_cases h2 : b.toNat < a.toNat
        · simp [strLtL, h1, h2] at h
        · simp only [strLtL, if_neg h1, if_neg h2] at h
          simp only [strLtL, if_neg h2, if_neg h1]
          exact strLtL_asymm as bs h

theorem strLtL_trans : ∀ a b c, strLtL a b = true → strLtL b c = true → strLtL a c = true
  | [], [], _, h1, _ => Bool.noConfusion h1
  | [], _ :: _, [], _, h2 => Bool.noConfusion h2
  | [], _ :: _, _ :: _, _, _ => rfl
  | _ :: _, [], _, h1, _ => Bool.noConfusion h1
  | _ :: _, _ :: _, [], _, h2 => Bool.noConfusion h2
  | a :: as, b :: bs, c :: cs, h1, h2 => by
      by_cases hab : a.toNat < b.toNat <;> by_cases hbc : b.toNat < c.toNat
      · simp [strLtL, Nat.lt_trans hab hbc]
      · by_cases hcb : c.toNat < b.toNat
        · simp [strLtL, hbc, hcb] at h2
        · have heq : b.toNat = c.toNat := by omega
          simp [strLtL, heq ▸ hab]
      · by_cases hba : b.toNat < a.toNat
        · simp [strLtL, hab, hba] at h1
        · have heq : a.toNat = b.toNat := by omega
          simp [strLtL, heq ▸ hbc]
      · by_cases hba : b.toNat < a.toNat
        · simp [strLtL, hab, hba] at h1
        · by_cases hcb : c.toNat < b.toNat
          · simp [strLtL, hbc, hcb] at h2
          · simp only [strLtL, if_neg hab, if_neg hba] at h1
            simp only [strLtL, if_neg hbc, if_neg hcb] at h2
            have hac1 : ¬ a.toNat < c.toNat := by omega
            have hac2 : ¬ c.toNat < a.toNat := by omega
            simp only [strLtL, if_neg hac1, if_neg hac2]
            exact strLtL_trans as bs cs h1 h2

theorem strLtL_eq_of_not : ∀ a b : List Char, strLtL a b = false → strLtL b a = false → a = b
  | [], [], _, _ => rfl
  | [], _ :: _, h1, _ => Bool.noConfusion h1
  | _ :: _, [], _, h2 => Bool.noConfusion h2
  | a :: as, b :: bs, h1, h2 => by
      by_cases hab : a.toNat < b.toNat
      · simp [strLtL, hab] at h1
      · by_cases hba : b.toNat < a.toNat
        · simp [strLtL, hba] at h2
        · have heq : a = b := charEqOfToNat (by omega)
          simp only [strLtL, if_neg hab, if_neg hba] at h1
          simp only [strLtL, if_neg hba, if_neg hab] at h2
          rw [heq, strLtL_eq_of_not as bs h1 h2]

theorem strLt_irrefl (s : String) : strLt s s = false := strLtL_irrefl s.data

theorem strLt_asymm {a b : String} (h : strLt a b = true) : strLt b a = false :=
  strLtL_asymm a.data b.data h

theorem strLt_trans {a b c : String} (h1 : strLt a b = true) (h2 : strLt b c = true) :
    strLt a c = true :=
  strLtL_trans a.data b.data c.data h1 h2

theorem strEqOfData : ∀ {a b : String}, a.data = b.data → a = b
  | ⟨_⟩, ⟨_⟩, rfl => rfl

theorem strLt_eq_of_not {a b : String} (h1 : strLt a b = false) (h2 : strLt b a = false) :
    a = b :=
  strEqOfData (strLtL_eq_of_not a.data b.data h1 h2)

instance : IsTotal (String × PyVal) keyLe where
  total a b := by
    unfold keyLe strLe
    by_cases h : strLt b.1 a.1 = true
    · right
      rw [strLt_asymm h]
      rfl
    · left
      rw [Bool.not_eq_true] at h
      rw [h]
      rfl

instance : IsTrans (String × PyVal) keyLe where
  trans a b c h1 h2 := by
    unfold keyLe strLe at h1 h2 ⊢
    rw [Bool.not_eq_true'] at h1 h2 ⊢
    by_cases hca : strLt c.1 a.1 = true
    · exfalso
      by_cases hab : strLt a.1 b.1 = true
      · by_cases hbc : strLt b.1 c.1 = true
        · have : strLt a.1 c.1 = true := strLt_trans hab hbc
          rw [strLt_asymm this] at hca
          exact Bool.noConfusion hca
        · rw [Bool.not_eq_true] at hbc
          have hbceq : b.1 = c.1 := strLt_eq_of_not hbc h2
          rw [← hbceq] at hca
          rw [hca] at h1
          exact Bool.noConfusion h1
      · rw [Bool.not_eq_true] at hab
        have habeq : a.1 = b.1 := strLt_eq_of_not hab h1
        rw [← habeq] at h2
        rw [hca] at h2
        exact Bool.noConfusion h2
    · rw [Bool.not_eq_true] at hca
      exact hca

/-- The strict companion of `keyLe`. -/
def keyLt (a b : String × PyVal) : Prop := strLt a.1 b.1 = true

theorem keyLt_of_keyLe_ne {a b : String × PyVal} (hle : keyLe a b) (hne : a.1 ≠ b.1) :
    keyLt a b := by
  unfold keyLe strLe at hle
  rw [Bool.not_eq_true'] at hle
  unfold keyLt
  by_cases h : strLt a.1 b.1 = true
  · exact h
  · rw [Bool.not_eq_true] at h
    exact absurd (strLt_eq_of_not h hle) hne

theorem lookup_eq_none_iff : ∀ (l : List (String × PyVal)) (k : String),
    l.lookup k = Option.none ↔ k ∉ l.map Prod.fst
  | [], k => by simp [List.lookup]
  | (k0, v0) :: rest, k => by
      by_cases h : k = k0
      · subst h
        simp [List.lookup]
      · simp only [List.lookup, beq_eq_false_iff_ne, ne_eq, h, not_false_eq_true,
          beq_iff_eq, if_neg]
        rw [show (k == k0) = false by simpa using h]
        simp only [List.map_cons, List.mem_cons, h, false_or]
        exact lookup_eq_none_iff rest k

theorem lookup_some_mem : ∀ {l : List (String × PyVal)} {k : String} {v : PyVal},
    l.lookup k = some v → (k, v) ∈ l
  | [], k, v, h => by simp [List.lookup] at h
  | (k0, v0) :: rest, k, v, h => by
      by_cases hk : k = k0
      · subst hk
        simp only [List.lookup, beq_self_eq_true] at h
        cases h
        exact List.mem_cons_self _ _
      · rw [List.lookup, show (k == k0) = false by simpa using hk] at h
        exact List.mem_cons_of_mem _ (lookup_some_mem h)

theorem lookup_map_canonical : ∀ (l : List (String × PyVal)) (k : String),
    (l.map fun kv => (kv.1, canonical kv.2)).lookup k = (l.lookup k).map canonical
  | [], k => by simp [List.lookup]
  | (k0, v0) :: rest, k => by
      by_cases hk : k = k0
      · subst hk
        simp [List.lookup]
      · simp only [List.map_cons, List.lookup,
          show (k == k0) = false by simpa using hk]
        exact lookup_map_canonical rest k

theorem lookup_perm {l₁ l₂ : List (String × PyVal)} (hp : l₁.Perm l₂)
    (hn : (l₁.map Prod.fst).Nodup) : ∀ k, l₁.lookup k = l₂.lookup k := by
  induction hp with
  | nil => intro k; rfl
  | cons x _ ih =>
      intro k
      simp only [List.map_cons, List.nodup_cons] at hn
      simp only [List.lookup]
      cases x with
      | mk k0 v0 =>
          cases hbe : k == k0
          · exact ih hn.2 k
          · rfl
  | swap x y l =>
      intro k
      cases x with | mk kx vx =>
      cases y with | mk ky vy =>
      simp only [List.map_cons, List.nodup_cons, List.mem_cons] at hn
      have hkk : ky ≠ kx := fun he => hn.1 (Or.inl he)
      by_cases h1 : k = ky
      · subst h1
        by_cases h2 : k = kx
        · exact absurd h2 hkk
        · simp [List.lookup, show (k == kx) = false by simpa using h2]
      · by_cases h2 : k = kx
        · subst h2
          simp [List.lookup, show (k == ky) = false by simpa using h1]
        · simp [List.lookup, show (k == ky) = false by simpa using h1,
            show (k == kx) = false by simpa using h2]
  | trans h12 h23 ih1 ih2 =>
      intro k
      have hn2 := ((h12.map Prod.fst).nodup_iff).mp hn
      rw [ih1 hn k, ih2 hn2 k]

theorem head_not_mem_keys {a : String × PyVal} {as : List (String × PyVal)}
    (hp : List.Pairwise keyLt (a :: as)) : a.1 ∉ as.map Prod.fst := by
  intro hmem
  rcases List.mem_map.mp hmem with ⟨x, hx, hfst⟩
  have hlt : keyLt a x := (List.pairwise_cons.mp hp).1 x hx
  unfold keyLt at hlt
  rw [hfst] at hlt
  rw [strLt_irrefl] at hlt
  exact Bool.noConfusion hlt

theorem extSorted : ∀ (l₁ l₂ : List (String × PyVal)),
    List.Pairwise keyLt l₁ → List.Pairwise keyLt l₂ →
    (∀ k, l₁.lookup k = l₂.lookup k) → l₁ = l₂
  | [], [], _, _, _ => rfl
  | [], b :: bs, _, _, hk => by
      have h := hk b.1
      simp [List.lookup] at h
  | a :: as, [], _, _, hk => by
      have h := hk a.1
      simp [List.lookup] at h
  | a :: as, b :: bs, h1, h2, hk => by
      have hab : a = b := by
        by_cases hlt : strLt a.1 b.1 = true
        · exfalso
          have h := hk a.1
          simp only [List.lookup, beq_self_eq_true] at h
          rw [show (a.1 == b.1) = false by
            simpa using fun he : a.1 = b.1 => by
              rw [he, strLt_irrefl] at hlt
              exact Bool.noConfusion hlt] at h
          have : a.1 ∉ bs.map Prod.fst := by
            intro hmem
            rcases List.mem_map.mp hmem with ⟨x, hx, hfst⟩
            have hbx : keyLt b x := (List.pairwise_cons.mp h2).1 x hx
            unfold keyLt at hbx
            rw [hfst] at hbx
            have := strLt_trans hlt hbx
            rw [strLt_irrefl] at this
            exact Bool.noConfusion this
          rw [(lookup_eq_none_iff bs a.1).mpr this] at h
          exact Option.noConfusion h
        · by_cases hgt : strLt b.1 a.1 = true
          · exfalso
            have h := hk b.1
            simp only [List.lookup, beq_self_eq_true] at h
            rw [show (b.1 == a.1) = false by
              simpa using fun he : b.1 = a.1 => by
                rw [he, strLt_irrefl] at hgt
                exact Bool.noConfusion hgt] at h
            have : b.1 ∉ as.map Prod.fst := by
              intro hmem
              rcases List.mem_map.mp hmem with ⟨x, hx, hfst⟩
              have hax : keyLt a x := (List.pairwise_cons.mp h1).1 x hx
              unfold keyLt at hax
              rw [hfst] at hax
              have := strLt_trans hgt hax
              rw [strLt_irrefl] at this
              exact Bool.noConfusion this
            rw [(lookup_eq_none_iff as b.1).mpr this] at h
            exact Option.noConfusion h
          · have hkey : a.1 = b.1 := by
              rw [Bool.not_eq_true] at hlt hgt
              exact strLt_eq_of_not hlt hgt
            have h := hk a.1
            simp only [List.lookup, beq_self_eq_true] at h
            rw [show (a.1 == b.1) = true by simpa using hkey] at h
            cases a with | mk ka va =>
            cases b with | mk kb vb =>
            simp only at hkey
            cases h
            cases hkey
            rfl
      subst hab
      have htail : as = bs := by
        apply extSorted as bs (List.pairwise_cons.mp h1).2 (List.pairwise_cons.mp h2).2
        intro k
        by_cases hka : k = a.1
        · rw [hka, (lookup_eq_none_iff as a.1).mpr (head_not_mem_keys h1),
            (lookup_eq_none_iff bs a.1).mpr (head_not_mem_keys h2)]
        · have h := hk k
          simp only [List.lookup] at h
          rw [show (k == a.1) = false by simpa using hka] at h
          exact h
      rw [htail]

theorem sortedStrict (l : List (String × PyVal)) (hn : (l.map Prod.fst).Nodup) :
    List.Pairwise keyLt (List.insertionSort keyLe l) := by
  have hsorted : List.Pairwise keyLe (List.insertionSort keyLe l) :=
    List.sorted_insertionSort keyLe l
  have hperm : (List.insertionSort keyLe l).Perm l := List.perm_insertionSort keyLe l
  have hn2 : ((List.insertionSort keyLe l).map Prod.fst).Nodup :=
    ((hperm.map Prod.fst).nodup_iff).mpr hn
  have hpairne : List.Pairwise (fun a b : String × PyVal => a.1 ≠ b.1)
      (List.insertionSort keyLe l) := List.pairwise_map.mp hn2
  exact (hsorted.and hpairne).imp fun hab => keyLt_of_keyLe_ne hab.1 hab.2

theorem find_eq_lookup : ∀ (d : PyDict) (k : String), d.find k = d.toEntries.lookup k
  | .nil, k => by simp [PyDict.find, PyDict.toEntries, List.lookup]
  | .cons k0 v0 rest, k => by
      simp only [PyDict.find, PyDict.toEntries, List.lookup]
      by_cases h : k0 = k
      · subst h
        simp
      · rw [if_neg h, show (k == k0) = false by simpa using (Ne.symm h)]
        exact find_eq_lookup rest k

theorem distinctKeys_nodup : ∀ (d : PyDict), distinctKeys d = true →
    (d.toEntries.map Prod.fst).Nodup
  | .nil, _ => by simp [PyDict.toEntries]
  | .cons k v rest, h => by
      simp only [distinctKeys, Bool.and_eq_true, Bool.not_eq_true'] at h
      obtain ⟨hnk, hrest⟩ := h
      simp only [PyDict.toEntries, List.map_cons, List.nodup_cons]
      constructor
      · have hnone : rest.find k = Option.none := by
          rw [PyDict.hasKey] at hnk
          cases hf : rest.find k
          · rfl
          · rw [hf] at hnk
            exact Bool.noConfusion hnk
        rw [find_eq_lookup] at hnone
        exact (lookup_eq_none_iff rest.toEntries k).mp hnone
      · exact distinctKeys_nodup rest hrest

theorem wfKeysDict_mem : ∀ (d : PyDict), wfKeysDict d = true →
    ∀ kv, kv ∈ d.toEntries → wfKeys kv.2 = true
  | .nil, _, kv, hm => by simp [PyDict.toEntries] at hm
  | .cons k v rest, h, kv, hm => by
      simp only [wfKeysDict, Bool.and_eq_true] at h
      simp only [PyDict.toEntries, List.mem_cons] at hm
      rcases hm with rfl | hm
      · exact h.1
      · exact wfKeysDict_mem rest h.2 kv hm

theorem canonicalDict_toEntries : ∀ (d : PyDict),
    (canonicalDict d).toEntries = d.toEntries.map fun kv => (kv.1, canonical kv.2)
  | .nil => rfl
  | .cons k v rest => by
      simp only [canonicalDict, PyDict.toEntries, List.map_cons]
      rw [canonicalDict_toEntries rest]

theorem keyOrderEqvSub_find : ∀ (xs ys : PyDict), keyOrderEqvSub xs ys = true →
    ∀ k v, (k, v) ∈ xs.toEntries → ∃ w, ys.find k = some w ∧ keyOrderEqv v w = true
  | .nil, ys, _, k, v, hm => by simp [PyDict.toEntries] at hm
  | .cons k0 v0 rest, ys, h, k, v, hm => by
      simp only [keyOrderEqvSub, Bool.and_eq_true] at h
      simp only [PyDict.toEntries, List.mem_cons, Prod.mk.injEq] at hm
      rcases hm with ⟨rfl, rfl⟩ | hm
      · rcases hfind : ys.find k with _ | w
        · rw [hfind] at h
          exact absurd h.1 (by simp)
        · rw [hfind] at h
          exact ⟨w, rfl, h.1⟩
      · exact keyOrderEqvSub_find rest ys h.2 k v hm

theorem mem_toEntries_sizeOf : ∀ (d : PyDict) (k : String) (v : PyVal),
    (k, v) ∈ d.toEntries → sizeOf v < sizeOf d
  | .nil, k, v, hm => by simp [PyDict.toEntries] at hm
  | .cons k0 v0 rest, k, v, hm => by
      simp only [PyDict.toEntries, List.mem_cons, Prod.mk.injEq] at hm
      rcases hm with ⟨rfl, rfl⟩ | hm
      · simp
        omega
      · have := mem_toEntries_sizeOf rest k v hm
        simp
        omega

theorem keys_eq_of_sub_len {l₁ l₂ : List String} (hn1 : l₁.Nodup) (hn2 : l₂.Nodup)
    (hsub : ∀ k, k ∈ l₁ → k ∈ l₂) (hlen : l₁.length = l₂.length) :
    ∀ k, k ∈ l₂ → k ∈ l₁ := by
  intro k hk
  have hfin : l₁.toFinset ⊆ l₂.toFinset := fun x hx =>
    List.mem_toFinset.mpr (hsub x (List.mem_toFinset.mp hx))
  have hcard : l₂.toFinset.card ≤ l₁.toFinset.card := by
    rw [List.toFinset_card_of_nodup hn1, List.toFinset_card_of_nodup hn2]
    omega
  have := Finset.eq_of_subset_of_card_le hfin hcard
  rw [← List.mem_toFinset, ← this, List.mem_toFinset] at hk
  exact hk

theorem keys_canonicalDict (d : PyDict) :
    (canonicalDict d).toEntries.map Prod.fst = d.toEntries.map Prod.fst := by
  rw [canonicalDict_toEntries, List.map_map]
  rfl

theorem lookup_insertionSort {l : List (String × PyVal)} (hn : (l.map Prod.fst).Nodup)
    (k : String) : (List.insertionSort keyLe l).lookup k = l.lookup k := by
  have hperm := List.perm_insertionSort keyLe l
  have hn2 : ((List.insertionSort keyLe l).map Prod.fst).Nodup :=
    ((hperm.map Prod.fst).nodup_iff).mpr hn
  exact lookup_perm hperm hn2 k

theorem canonEqvAux : ∀ (n : Nat),
    (∀ (v w : PyVal), sizeOf v ≤ n → wfKeys v = true → wfKeys w = true →
      keyOrderEqv v w = true → canonical v = canonical w) ∧
    (∀ (xs ys : PyList), sizeOf xs ≤ n → wfKeysList xs = true → wfKeysList ys = true →
      keyOrderEqvList xs ys = true → canonicalList xs = canonicalList ys) := by
  intro n
  induction n using Nat.strong_induction_on with
  | _ n IH =>
    constructor
    · intro v w hsz hv hw he
      cases v with
      | none =>
          cases w <;> try exact Bool.noConfusion he
          rfl
      | bool a =>
          cases w <;> try exact Bool.noConfusion he
          rename_i b
          have hab : a = b := eq_of_beq (show (a == b) = true from he)
          rw [hab]
      | int a =>
          cases w <;> try exact Bool.noConfusion he
          rename_i b
          have hab : a = b := eq_of_beq (show (a == b) = true from he)
          rw [hab]
      | float a =>
          cases w <;> try exact Bool.noConfusion he
          rename_i b
          have hab : a = b := eq_of_beq (show (a == b) = true from he)
          rw [hab]
      | str a =>
          cases w <;> try exact Bool.noConfusion he
          rename_i b
          have hab : a = b := eq_of_beq (show (a == b) = true from he)
          rw [hab]
      | datetime y mo d h mi sec =>
          cases w <;> try exact Bool.noConfusion he
          rename_i y' mo' d' h' mi' sec'
          have h6 : (y == y' && mo == mo' && d == d' && h == h' && mi == mi' &&
              sec == sec') = true := he
          simp only [Bool.and_eq_true, beq_iff_eq] at h6
          obtain ⟨⟨⟨⟨⟨rfl, rfl⟩, rfl⟩, rfl⟩, rfl⟩, rfl⟩ := h6
          rfl
      | list xs =>
          cases w <;> try exact Bool.noConfusion he
          rename_i ys
          have he2 : keyOrderEqvList xs ys = true := he
          have hv2 : wfKeysList xs = true := hv
          have hw2 : wfKeysList ys = true := hw
          have hsz' : sizeOf xs < n := by
            have hle : sizeOf (PyVal.list xs) ≤ n := hsz
            simp only [PyVal.list.sizeOf_spec] at hle
            omega
          have := (IH (sizeOf xs) hsz').2 xs ys le_rfl hv2 hw2 he2
          show PyVal.list (canonicalList xs) = PyVal.list (canonicalList ys)
          rw [this]
      | dict xs =>
          cases w <;> try exact Bool.noConfusion he
          rename_i ys
          have he2 : (decide (xs.toEntries.length = ys.toEntries.length) &&
              keyOrderEqvSub xs ys) = true := he
          rw [Bool.and_eq_true, decide_eq_true_eq] at he2
          obtain ⟨hlen, hsub⟩ := he2
          have hv2 : (distinctKeys xs && wfKeysDict xs) = true := hv
          have hw2 : (distinctKeys ys && wfKeysDict ys) = true := hw
          rw [Bool.and_eq_true] at hv2 hw2
          obtain ⟨hdx, hwx⟩ := hv2
          obtain ⟨hdy, hwy⟩ := hw2
          have hnx : ((canonicalDict xs).toEntries.map Prod.fst).Nodup := by
            rw [keys_canonicalDict]
            exact distinctKeys_nodup xs hdx
          have hny : ((canonicalDict ys).toEntries.map Prod.fst).Nodup := by
            rw [keys_canonicalDict]
            exact distinctKeys_nodup ys hdy
          have hAB : List.insertionSort keyLe (canonicalDict xs).toEntries =
              List.insertionSort keyLe (canonicalDict ys).toEntries := by
            apply extSorted
            · exact sortedStrict _ hnx
            · exact sortedStrict _ hny
            · intro k
              rw [lookup_insertionSort hnx k, lookup_insertionSort hny k,
                canonicalDict_toEntries, canonicalDict_toEntries,
                lookup_map_canonical, lookup_map_canonical]
              cases hx : xs.toEntries.lookup k with
              | none =>
                  have hky : ys.toEntries.lookup k = Option.none := by
                    rw [lookup_eq_none_iff] at hx ⊢
                    intro hmem
                    apply hx
                    refine keys_eq_of_sub_len (distinctKeys_nodup xs hdx)
                      (distinctKeys_nodup ys hdy) ?_ ?_ k hmem
                    · intro k' hk'
                      rcases List.mem_map.mp hk' with ⟨kv, hkv, rfl⟩
                      obtain ⟨w', hfind, _⟩ := keyOrderEqvSub_find xs ys hsub kv.1 kv.2
                        (by simpa using hkv)
                      rw [find_eq_lookup] at hfind
                      exact List.mem_map.mpr ⟨(kv.1, w'), lookup_some_mem hfind, rfl⟩
                    · simpa using hlen
                  rw [hky]
              | some v0 =>
                  have hmem := lookup_some_mem hx
                  obtain ⟨w0, hfind, hkoe⟩ := keyOrderEqvSub_find xs ys hsub k v0 hmem
                  have hwv : wfKeys v0 = true := wfKeysDict_mem xs hwx (k, v0) hmem
                  rw [find_eq_lookup] at hfind
                  have hmemy : (k, w0) ∈ ys.toEntries := lookup_some_mem hfind
                  have hww0 : wfKeys w0 = true := wfKeysDict_mem ys hwy (k, w0) hmemy
                  have hszv : sizeOf v0 < n := by
                    have h1 := mem_toEntries_sizeOf xs k v0 hmem
                    have h2 : sizeOf (PyVal.dict xs) ≤ n := hsz
                    simp only [PyVal.dict.sizeOf_spec] at h2
                    omega
                  have hcan := (IH (sizeOf v0) hszv).1 v0 w0 le_rfl hwv hww0 hkoe
                  rw [hfind]
                  simp only [Option.map, hcan]
          show PyVal.dict (PyDict.ofEntries (List.insertionSort keyLe
              (canonicalDict xs).toEntries)) = PyVal.dict (PyDict.ofEntries
              (List.insertionSort keyLe (canonicalDict ys).toEntries))
          rw [hAB]
    · intro xs ys hsz hx hy he
      cases xs with
      | nil =>
          cases ys with
          | nil => rfl
          | cons b bs => exact Bool.noConfusion he
      | cons a as =>
          cases ys with
          | nil => exact Bool.noConfusion he
          | cons b bs =>
              have h2 : (keyOrderEqv a b && keyOrderEqvList as bs) = true := he
              rw [Bool.and_eq_true] at h2
              have hx2 : (wfKeys a && wfKeysList as) = true := hx
              have hy2 : (wfKeys b && wfKeysList bs) = true := hy
              rw [Bool.and_eq_true] at hx2 hy2
              have hsza : sizeOf a < n := by
                have hle : sizeOf (PyList.cons a as) ≤ n := hsz
                simp only [PyList.cons.sizeOf_spec] at hle
                omega
              have hszas : sizeOf as < n := by
                have hle : sizeOf (PyList.cons a as) ≤ n := hsz
                simp only [PyList.cons.sizeOf_spec] at hle
                omega
              have hh := (IH (sizeOf a) hsza).1 a b le_rfl hx2.1 hy2.1 h2.1
              have ht := (IH (sizeOf as) hszas).2 as bs le_rfl hx2.2 hy2.2 h2.2
              show PyList.cons (canonical a) (canonicalList as) =
                PyList.cons (canonical b) (canonicalList bs)
              rw [hh, ht]

theorem canonical_eq_of_keyOrderEqv {v w : PyVal} (hv : wfKeys v = true)
    (hw : wfKeys w = true) (he : keyOrderEqv v w = true) : canonical v = canonical w :=
  (canonEqvAux (sizeOf v)).1 v w le_rfl hv hw he

theorem lookup_updateSession : ∀ (l : List (String × SessionInfo)) (sid : String)
    (f : SessionInfo → SessionInfo),
    (updateSession l sid f).lookup sid = (l.lookup sid).map f
  | [], _, _ => rfl
  | (k, v) :: rest, sid, f => by
      have hmap : updateSession ((k, v) :: rest) sid f =
          (if k = sid then (k, f v) else (k, v)) :: updateSession rest sid f := rfl
      rw [hmap]
      by_cases h : k = sid
      · rw [if_pos h]
        subst h
        simp [List.lookup]
      · rw [if_neg h]
        have hbe : (sid == k) = false := by simpa using (Ne.symm h)
        simp only [List.lookup, hbe]
        exact lookup_updateSession rest sid f

theorem store_api_data_dup (s : StorageState) (sid : String) (sess : SessionInfo)
    (raw : PyVal) (p sp : Option PyVal)
    (hs : getSessionInfo s sid = some sess)
    (hdup : sess.records.any (fun r => r.data_hash = dataHash raw) = true) :
    store_api_data s sid raw p sp = ⟨true, 0, "数据已存在，跳过重复存储", s⟩ := by
  unfold store_api_data
  rw [hs]
  simp [hdup]

theorem store_api_data_fresh (s : StorageState) (sid : String) (sess : SessionInfo)
    (raw : PyVal) (p sp : Option PyVal)
    (hs : getSessionInfo s sid = some sess)
    (hfresh : sess.records.any (fun r => r.data_hash = dataHash raw) = false) :
    (store_api_data s sid raw p sp).ok = true ∧
    (store_api_data s sid raw p sp).records_added = 1 ∧
    getSessionInfo (store_api_data s sid raw p sp).state sid =
      some ⟨sess.session_name, sess.description, sess.api_name, sess.endpoint_name,
        sess.records.length + 1, sess.created_at, s.clock + 1, some (s.clock + 1),
        sess.records ++ [⟨sess.next_id, dataHash raw, raw,
          (if optTruthy p then p else Option.none),
          (if optTruthy sp then sp else Option.none), s.clock⟩],
        sess.next_id + 1⟩ ∧
    (store_api_data s sid raw p sp).state.operations =
      s.operations ++ [⟨sid, "store_data", 1, "存储API数据，哈希: ...", s.clock + 1⟩] ∧
    (store_api_data s sid raw p sp).state.clock = s.clock + 1 := by
  have hs' : s.sessions.lookup sid = some sess := hs
  refine ⟨?_, ?_, ?_, ?_, ?_⟩ <;>
    simp [store_api_data, hs, hfresh, update_session_stats, log_operation, getSessionInfo,
      lookup_updateSession, hs']

/-- Claim C1: append is idempotent under content hashing.  For any two
raw values that are deep-equal up to map key order (`keyOrderEqv`, with
both values well-formed `StructuredValue`s), `store_api_data` computes
the same content hash for both (canonicalization sorts map keys
recursively); and appending both to a session that does not yet hold
that hash yields exactly one stored record: the second call returns `0`
records added, the session's `total_records` rises by exactly 1, and
exactly one stored row carries the hash. -/
theorem claim_C1_append_idempotent_under_hashing (s : StorageState) (session_id : String)
    (sess : SessionInfo) (v w : PyVal) (p1 sp1 p2 sp2 : Option PyVal)
    (hs : getSessionInfo s session_id = some sess)
    (hwv : wfKeys v = true) (hww : wfKeys w = true)
    (heqv : keyOrderEqv v w = true)
    (hfresh : sess.records.countP (fun r => decide (r.data_hash = dataHash v)) = 0)
    (hinv : sess.total_records = sess.records.length) :
    dataHash v = dataHash w ∧
    (store_api_data (store_api_data s session_id v p1 sp1).state session_id w p2 sp2).records_added = 0 ∧
    sessionTotalRecords
      (store_api_data (store_api_data s session_id v p1 sp1).state session_id w p2 sp2).state
      session_id = some (sess.total_records + 1) ∧
    sessionHashCount
      (store_api_data (store_api_data s session_id v p1 sp1).state session_id w p2 sp2).state
      session_id (dataHash v) = some 1 := by
  have hhash : dataHash v = dataHash w := canonical_eq_of_keyOrderEqv hwv hww heqv
  have hfreshAny : sess.records.any (fun r => r.data_hash = dataHash v) = false := by
    rw [List.any_eq_false]
    intro r hr
    have := List.countP_eq_zero.mp hfresh r hr
    simpa using this
  obtain ⟨hok1, hadd1, hget1, hops1, hclk1⟩ :=
    store_api_data_fresh s session_id sess v p1 sp1 hs hfreshAny
  have hdup : (sess.records ++ [(⟨sess.next_id, dataHash v, v,
      (if optTruthy p1 then p1 else Option.none),
      (if optTruthy sp1 then sp1 else Option.none), s.clock⟩ : StoredRecord)]).any
      (fun r => r.data_hash = dataHash w) = true := by
    rw [List.any_append]
    have hone : ([(⟨sess.next_id, dataHash v, v,
        (if optTruthy p1 then p1 else Option.none),
        (if optTruthy sp1 then sp1 else Option.none), s.clock⟩ : StoredRecord)].any
        (fun r => r.data_hash = dataHash w)) = true := by
      simp [hhash]
    rw [hone, Bool.or_true]
  have h2 := store_api_data_dup (store_api_data s session_id v p1 sp1).state session_id
    ⟨sess.session_name, sess.description, sess.api_name, sess.endpoint_name,
      sess.records.length + 1, sess.created_at, s.clock + 1, some (s.clock + 1),
      sess.records ++ [⟨sess.next_id, dataHash v, v,
        (if optTruthy p1 then p1 else Option.none),
        (if optTruthy sp1 then sp1 else Option.none), s.clock⟩],
      sess.next_id + 1⟩ w p2 sp2 hget1 hdup
  refine ⟨hhash, ?_, ?_, ?_⟩
  · rw [h2]
  · rw [h2]
    simp only [sessionTotalRecords, hget1, Option.map]
    rw [hinv]
  · rw [h2]
    simp only [sessionHashCount, sessionRecordList, hget1, Option.map]
    rw [List.countP_append]
    simp [hfresh]

/-- Witness for claim C1: the hypotheses hold and the conclusion
follows at a concrete state — one empty session, and the two
key-permuted values `\x7bb:1, a:2\x7d` and `\x7ba:2, b:1\x7d`. -/
theorem claim_C1_witness :
    getSessionInfo oneSessionState "sid1" = some freshSession ∧
    wfKeys permValueBA = true ∧ wfKeys permValueAB = true ∧
    keyOrderEqv permValueBA permValueAB = true ∧
    freshSession.records.countP (fun r => decide (r.data_hash = dataHash permValueBA)) = 0 ∧
    freshSession.total_records = freshSession.records.length ∧
    (dataHash permValueBA = dataHash permValueAB ∧
     (store_api_data (store_api_data oneSessionState "sid1" permValueBA Option.none
        Option.none).state "sid1" permValueAB Option.none Option.none).records_added = 0 ∧
     sessionTotalRecords
       (store_api_data (store_api_data oneSessionState "sid1" permValueBA Option.none
          Option.none).state "sid1" permValueAB Option.none Option.none).state
       "sid1" = some (freshSession.total_records + 1) ∧
     sessionHashCount
       (store_api_data (store_api_data oneSessionState "sid1" permValueBA Option.none
          Option.none).state "sid1" permValueAB Option.none Option.none).state
       "sid1" (dataHash permValueBA) = some 1) :=
  ⟨by decide, by decide, by decide, by decide, by decide, by decide,
   claim_C1_append_idempotent_under_hashing oneSessionState "sid1" freshSession
     permValueBA permValueAB Option.none Option.none Option.none Option.none
     (by decide) (by decide) (by decide) (by decide) (by decide) (by decide)⟩

theorem retryGo_made_lt (attempts : Nat → AttemptOutcome) (delay : Nat) :
    ∀ (remaining i made : Nat) (sleeps : List Nat),
    made < (retryGo attempts delay remaining i made sleeps).attemptsMade := by
  intro remaining
  induction remaining with
  | zero =>
      intro i made sleeps
      cases h : attempts i <;> simp only [retryGo, h] <;> (try split) <;>
        exact Nat.lt_succ_self made
  | succ r ih =>
      intro i made sleeps
      cases h : attempts i with
      | response status =>
          simp only [retryGo, h]
          by_cases hst : status < 500
          · rw [if_pos hst]
            exact Nat.lt_succ_self made
          · rw [if_neg hst]
            have := ih (i + 1) (made + 1) (sleeps ++ [delay])
            omega
      | timeout =>
          simp only [retryGo, h]
          have := ih (i + 1) (made + 1) (sleeps ++ [delay])
          omega
      | connectionError m =>
          simp only [retryGo, h]
          have := ih (i + 1) (made + 1) (sleeps ++ [delay])
          omega
      | otherException m =>
          simp only [retryGo, h]
          exact Nat.lt_succ_self made

theorem retryGo_sleeps (attempts : Nat → AttemptOutcome) (delay : Nat) :
    ∀ (remaining i made : Nat) (sleeps : List Nat),
    (retryGo attempts delay remaining i made sleeps).sleeps =
      sleeps ++ List.replicate
        ((retryGo attempts delay remaining i made sleeps).attemptsMade - made - 1) delay := by
  intro remaining
  induction remaining with
  | zero =>
      intro i made sleeps
      cases h : attempts i <;> simp only [retryGo, h] <;> (try split) <;> simp
  | succ r ih =>
      intro i made sleeps
      have step : ∀ (i' : Nat),
          (retryGo attempts delay r (i' + 1) (made + 1) (sleeps ++ [delay])).sleeps =
            sleeps ++ List.replicate
              ((retryGo attempts delay r (i' + 1) (made + 1) (sleeps ++ [delay])).attemptsMade
                - made - 1) delay := by
        intro i'
        have hlt := retryGo_made_lt attempts delay r (i' + 1) (made + 1) (sleeps ++ [delay])
        rw [ih (i' + 1) (made + 1) (sleeps ++ [delay])]
        have hk : (retryGo attempts delay r (i' + 1) (made + 1)
            (sleeps ++ [delay])).attemptsMade - made - 1 =
            ((retryGo attempts delay r (i' + 1) (made + 1)
              (sleeps ++ [delay])).attemptsMade - (made + 1) - 1) + 1 := by omega
        rw [hk, List.replicate_succ, List.append_assoc, List.singleton_append]
      cases h : attempts i with
      | response status =>
          simp only [retryGo, h]
          by_cases hst : status < 500
          · rw [if_pos hst]
            simp
          · rw [if_neg hst]
            exact step i
      | timeout =>
          simp only [retryGo, h]
          exact step i
      | connectionError m =>
          simp only [retryGo, h]
          exact step i
      | otherException m =>
          simp only [retryGo, h]
          simp

theorem retryGo_retryable (attempts : Nat → AttemptOutcome) (delay : Nat) :
    ∀ (remaining i : Nat) (sleeps : List Nat) (j : Nat),
    j + 1 < (retryGo attempts delay remaining i i sleeps).attemptsMade →
    j < i ∨ retryable (attempts j) = true := by
  intro remaining
  induction remaining with
  | zero =>
      intro i sleeps j hj
      left
      have hmade : (retryGo attempts delay 0 i i sleeps).attemptsMade = i + 1 := by
        cases h : attempts i <;> simp only [retryGo, h]
        split <;> rfl
      rw [hmade] at hj
      omega
  | succ r ih =>
      intro i sleeps j hj
      cases h : attempts i with
      | response status =>
          by_cases hst : status < 500
          · have hmade : (retryGo attempts delay (r + 1) i i sleeps).attemptsMade = i + 1 := by
              simp only [retryGo, h, if_pos hst]
            rw [hmade] at hj
            left
            omega
          · have heq : retryGo attempts delay (r + 1) i i sleeps =
                retryGo attempts delay r (i + 1) (i + 1) (sleeps ++ [delay]) := by
              simp only [retryGo, h, if_neg hst]
            rw [heq] at hj
            rcases ih (i + 1) (sleeps ++ [delay]) j hj with hcase | hcase
            · rcases Nat.lt_or_ge j i with hji | hji
              · exact Or.inl hji
              · have hji2 : j = i := by omega
                right
                rw [hji2, h]
                simp only [retryable, decide_eq_true_eq]
                omega
            · exact Or.inr hcase
      | timeout =>
          have heq : retryGo attempts delay (r + 1) i i sleeps =
              retryGo attempts delay r (i + 1) (i + 1) (sleeps ++ [delay]) := by
            simp only [retryGo, h]
          rw [heq] at hj
          rcases ih (i + 1) (sleeps ++ [delay]) j hj with hcase | hcase
          · rcases Nat.lt_or_ge j i with hji | hji
            · exact Or.inl hji
            · have hji2 : j = i := by omega
              right
              rw [hji2, h]
              rfl
          · exact Or.inr hcase
      | connectionError m =>
          have heq : retryGo attempts delay (r + 1) i i sleeps =
              retryGo attempts delay r (i + 1) (i + 1) (sleeps ++ [delay]) := by
            simp only [retryGo, h]
          rw [heq] at hj
          rcases ih (i + 1) (sleeps ++ [delay]) j hj with hcase | hcase
          · rcases Nat.lt_or_ge j i with hji | hji
            · exact Or.inl hji
            · have hji2 : j = i := by omega
              right
              rw [hji2, h]
              rfl
          · exact Or.inr hcase
      | otherException m =>
          have hmade : (retryGo attempts delay (r + 1) i i sleeps).attemptsMade = i + 1 := by
            simp only [retryGo, h]
          rw [hmade] at hj
          left
          omega

/-- Claim C2: in the connector's retry loop, an attempt is followed by
another attempt only if its outcome was retryable — an HTTP status
≥ 500 or a transport-level timeout/connection error; every status in
`[400, 500)` (indeed every status < 500) is terminal without retry;
and the delay slept between consecutive attempts is always exactly the
configured `retry_delay` (defaults: `max_retries = 3`,
`retry_delay = 1`), i.e. fixed, not exponential. -/
theorem claim_C2_retry_policy (attempts : Nat → AttemptOutcome)
    (max_retries retry_delay i : Nat)
    (h : i + 1 < (send_request_with_retry attempts max_retries retry_delay).attemptsMade) :
    retryable (attempts i) = true ∧
    (send_request_with_retry attempts max_retries retry_delay).sleeps =
      List.replicate
        ((send_request_with_retry attempts max_retries retry_delay).attemptsMade - 1)
        retry_delay ∧
    defaultMaxRetries = 3 ∧ defaultRetryDelay = 1 := by
  refine ⟨?_, ?_, rfl, rfl⟩
  · rcases retryGo_retryable attempts retry_delay max_retries 0 [] i h with h0 | hr
    · omega
    · exact hr
  · have hsl := retryGo_sleeps attempts retry_delay max_retries 0 0 []
    simpa [send_request_with_retry] using hsl

/-- Witness for claim C2: a 503 on the first attempt followed by a 200,
with the default `max_retries = 3` and `retry_delay = 1`. -/
theorem claim_C2_witness :
    0 + 1 < (send_request_with_retry oracle503Then200 3 1).attemptsMade ∧
    (retryable (oracle503Then200 0) = true ∧
     (send_request_with_retry oracle503Then200 3 1).sleeps =
       List.replicate ((send_request_with_retry oracle503Then200 3 1).attemptsMade - 1) 1 ∧
     defaultMaxRetries = 3 ∧ defaultRetryDelay = 1) :=
  ⟨by decide, claim_C2_retry_policy oracle503Then200 3 1 0 (by decide)⟩

/-- Claim C3: the transformer applies its operations in the fixed
source order (select, rename, filter, sort, limit, type-convert,
compute — the order `apply_transform_config` is built from); in
particular, for `[\x7ba:2,b:1\x7d, \x7ba:1,b:2\x7d]` with
`\x7bfilter: a>0, sort_by: a, limit: 1\x7d` the result is
`[\x7ba:1,b:2\x7d]`: the filter keeps both records, the ascending sort
puts `a = 1` first, and the limit truncates to one record. -/
theorem claim_C3_transform_ordering :
    apply_transform_config (.list (.cons recA2B1 (.cons recA1B2 .nil))) orderingConfig =
      (true, .list (.cons recA1B2 .nil), "转换配置应用成功") := by decide

/-- Counterexample to claim C4 as stated: the pipeline is not total —
for the record `\x7ba: "x"\x7d` and the well-formed spec
`\x7bfilter: a > 0\x7d`, the filter comparison between a string and an
int raises, nothing catches it below `_apply_transform_config`'s
top-level handler, and `transform_data` aborts with an error and no
value instead of preserving the prior step's value. -/
theorem claim_C4_counterexample :
    (transform_data (.list (.cons recAStr .nil)) "json" (some filterOnlyConfig)).1 = false ∧
    (transform_data (.list (.cons recAStr .nil)) "json" (some filterOnlyConfig)).2.1 =
      Option.none :=
  ⟨by decide, by decide⟩

/-- Claim C4 as amended: only the sort, type-conversion and
computed-field sub-steps are individually caught — a sort key type
mismatch skips the sort and preserves the value of the prior step —
whereas a filter comparison between incomparable types aborts the
whole transform: `_apply_transform_config` reports failure (returning
the original input in its data slot) and `transform_data` then returns
an error with no value. -/
theorem claim_C4_amended_guarded_steps :
    apply_transform_config mixedKeyList sortOnlyConfig =
      (true, mixedKeyList, "转换配置应用成功") ∧
    (apply_transform_config (.list (.cons recAStr .nil)) filterOnlyConfig).1 = false ∧
    (apply_transform_config (.list (.cons recAStr .nil)) filterOnlyConfig).2.1 =
      .list (.cons recAStr .nil) ∧
    (transform_data (.list (.cons recAStr .nil)) "json" (some filterOnlyConfig)).1 = false ∧
    (transform_data (.list (.cons recAStr .nil)) "json" (some filterOnlyConfig)).2.1 =
      Option.none :=
  ⟨by decide, by decide, by decide, by decide, by decide⟩

/-- Claim C7: XML decoding follows the recursive element-to-value
rule — `<root><item>1</item><item>2</item></root>` decodes to
`\x7b"root": \x7b"item": ["1", "2"]\x7d\x7d`; attributes become an
`"@attributes"` map; a mixed element keeps its stripped text under
`"#text"`; a leaf with only text becomes a plain string. -/
theorem claim_C7_xml_decode_rules :
    xml_to_dict xmlTwoItems =
      .dict (.cons "root"
        (.dict (.cons "item" (.list (.cons (.str "1") (.cons (.str "2") .nil))) .nil)) .nil) ∧
    element_to_dict xmlWithAttr =
      .dict (.cons "@attributes" (.dict (.cons "id" (.str "7") .nil)) .nil) ∧
    element_to_dict xmlMixed =
      .dict (.cons "c" (.str "1") (.cons "#text" (.str "hi") .nil)) ∧
    element_to_dict (.mk "leaf" [] " 1 " .nil) = .str "1" :=
  ⟨by decide, by decide, by decide, by decide⟩

/-- Claim C8: deleting a session id that does not exist returns the
session-not-found failure and mutates nothing — the entire storage
state (every other session's metadata, records and operation-log
entries) is returned unchanged. -/
theorem claim_C8_delete_missing_session_frame (s : StorageState) (session_id : String)
    (h : getSessionInfo s session_id = Option.none) :
    delete_storage_session s session_id =
      ⟨false, "存储会话不存在: " ++ session_id, s⟩ := by
  unfold delete_storage_session
  rw [h]

/-- Witness for claim C8 at a concrete state and missing id. -/
theorem claim_C8_witness :
    getSessionInfo oneSessionState "nope" = Option.none ∧
    delete_storage_session oneSessionState "nope" =
      ⟨false, "存储会话不存在: " ++ "nope", oneSessionState⟩ :=
  ⟨by decide, claim_C8_delete_missing_session_frame oneSessionState "nope" (by decide)⟩

/-- Claim C9 (implicit): for an existing session, `get_stored_data`
with `offset > 0` but no `limit` builds `... OFFSET ?` without a
`LIMIT` clause, which SQLite rejects, so the call fails with an error
and no records; retrieval past an offset succeeds only when a limit is
also supplied. -/
theorem claim_C9_offset_without_limit_fails (s : StorageState) (session_id : String)
    (sess : SessionInfo) (offset : Int)
    (hs : getSessionInfo s session_id = some sess) (hoff : 0 < offset) :
    (get_stored_data s session_id Option.none offset "json").ok = false ∧
    (get_stored_data s session_id Option.none offset "json").data = Option.none := by
  constructor <;> simp [get_stored_data, hs, hoff]

/-- Witness for claim C9: an existing session queried with offset 1
and no limit. -/
theorem claim_C9_witness :
    getSessionInfo oneSessionState "sid1" = some freshSession ∧ (0 : Int) < 1 ∧
    ((get_stored_data oneSessionState "sid1" Option.none 1 "json").ok = false ∧
     (get_stored_data oneSessionState "sid1" Option.none 1 "json").data = Option.none) :=
  ⟨by decide, by decide,
   claim_C9_offset_without_limit_fails oneSessionState "sid1" freshSession 1
     (by decide) (by decide)⟩

/-- Claim C10 (implicit): an append whose `processed_data` argument is
falsy (empty map, empty list, `0`, empty string, `False` — or `None`)
stores SQL `NULL` for `processed_data`, making the call — and every
later retrieval — indistinguishable from one that omitted
`processed_data` entirely; only truthy processed values are stored. -/
theorem claim_C10_falsy_processed_is_null (s : StorageState) (session_id : String)
    (raw p : PyVal) (sp : Option PyVal) (h : pyTruthy p = false) :
    store_api_data s session_id raw (some p) sp =
      store_api_data s session_id raw Option.none sp ∧
    get_stored_data (store_api_data s session_id raw (some p) sp).state session_id
        Option.none 0 "json" =
      get_stored_data (store_api_data s session_id raw Option.none sp).state session_id
        Option.none 0 "json" := by
  have h1 : store_api_data s session_id raw (some p) sp =
      store_api_data s session_id raw Option.none sp := by
    cases hs : getSessionInfo s session_id with
    | none => simp [store_api_data, hs]
    | some sess => simp [store_api_data, hs, optTruthy, h]
  exact ⟨h1, by rw [h1]⟩

/-- Witness for claim C10: the falsy processed value `\x7b\x7d`. -/
theorem claim_C10_witness :
    pyTruthy (.dict .nil) = false ∧
    (store_api_data oneSessionState "sid1" permValueBA (some (.dict .nil)) Option.none =
       store_api_data oneSessionState "sid1" permValueBA Option.none Option.none ∧
     get_stored_data (store_api_data oneSessionState "sid1" permValueBA
         (some (.dict .nil)) Option.none).state "sid1" Option.none 0 "json" =
       get_stored_data (store_api_data oneSessionState "sid1" permValueBA
         Option.none Option.none).state "sid1" Option.none 0 "json") :=
  ⟨by decide,
   claim_C10_falsy_processed_is_null oneSessionState "sid1" permValueBA (.dict .nil)
     Option.none (by decide)⟩

/-- Counterexample to claim C5 as stated: a duplicate append does NOT
record an operation-log entry — the early "already exists" return
skips `_log_operation`, so the audit log does not gain one entry for
every append call. -/
theorem claim_C5_counterexample :
    ¬ ((store_api_data dupState "sid1" permValueBA Option.none
          Option.none).state.operations.length = dupState.operations.length + 1) := by
  decide

/-- Claim C5 as amended: when the session already holds a record with
the raw value's content hash, `store_api_data` returns success with 0
records added and leaves the state — records, session stats, and the
operation log — entirely unchanged; a log entry is written only when a
new record is inserted. -/
theorem claim_C5_amended_dup_append_silent (s : StorageState) (session_id : String)
    (sess : SessionInfo) (raw : PyVal) (p sp : Option PyVal)
    (hs : getSessionInfo s session_id = some sess)
    (hdup : sess.records.any (fun r => r.data_hash = dataHash raw) = true) :
    store_api_data s session_id raw p sp = ⟨true, 0, "数据已存在，跳过重复存储", s⟩ :=
  store_api_data_dup s session_id sess raw p sp hs hdup

theorem claim_C5_amended_witness :
    getSessionInfo dupState "sid1" =
      some ⟨"s", Option.none, "api", "ep", 1, 0, 6, some 6,
        [⟨1, PyVal.dict (.cons "a" (.int 2) (.cons "b" (.int 1) .nil)), permValueBA,
          Option.none, Option.none, 5⟩], 2⟩ ∧
    ((⟨"s", Option.none, "api", "ep", 1, 0, 6, some 6,
        [⟨1, PyVal.dict (.cons "a" (.int 2) (.cons "b" (.int 1) .nil)), permValueBA,
          Option.none, Option.none, 5⟩], 2⟩ : SessionInfo)).records.any
      (fun r => r.data_hash = dataHash permValueBA) = true ∧
    store_api_data dupState "sid1" permValueBA Option.none Option.none =
      ⟨true, 0, "数据已存在，跳过重复存储", dupState⟩ :=
  ⟨by decide, by decide,
   claim_C5_amended_dup_append_silent dupState "sid1"
     ⟨"s", Option.none, "api", "ep", 1, 0, 6, some 6,
       [⟨1, PyVal.dict (.cons "a" (.int 2) (.cons "b" (.int 1) .nil)), permValueBA,
         Option.none, Option.none, 5⟩], 2⟩
     permValueBA Option.none Option.none (by decide) (by decide)⟩

theorem check_filter_cons (kvs : PyDict) (c' : FilterCondition)
    (rest : List FilterCondition) :
    check_filter_conditions (.dict kvs) (c' :: rest) =
      match kvs.find c'.field with
      | Option.none => check_filter_conditions (.dict kvs) rest
      | some v =>
          match conditionTest v c'.operator c'.value with
          | .error e => .error e
          | .ok true => check_filter_conditions (.dict kvs) rest
          | .ok false => .ok false := by
  rw [show check_filter_conditions (PyVal.dict kvs) (c' :: rest) =
    Except.bind (pyInTest (PyVal.dict kvs) c'.field) (fun present =>
      if !present then check_filter_conditions (PyVal.dict kvs) rest
      else Except.bind (pyGetItem (PyVal.dict kvs) c'.field) (fun item_value =>
        Except.bind (conditionTest item_value c'.operator c'.value) (fun pass =>
          if pass then check_filter_conditions (PyVal.dict kvs) rest
          else Except.ok false))) from rfl]
  rw [show pyInTest (PyVal.dict kvs) c'.field = Except.ok (kvs.hasKey c'.field) from rfl]
  cases hf : kvs.find c'.field with
  | none =>
      rw [show kvs.hasKey c'.field = (kvs.find c'.field).isSome from rfl, hf]
      simp [Except.bind]
  | some v =>
      rw [show kvs.hasKey c'.field = (kvs.find c'.field).isSome from rfl, hf]
      simp only [Option.isSome_some, Except.bind, Bool.not_true, Bool.false_eq_true,
        if_false]
      rw [show pyGetItem (PyVal.dict kvs) c'.field =
        (match kvs.find c'.field with
         | some v0 => Except.ok v0
         | Option.none => Except.error "KeyError") from rfl, hf]
      dsimp only
      cases ht : conditionTest v c'.operator c'.value with
      | error e => simp [Except.bind]
      | ok b => cases b <;> simp [Except.bind]

theorem claim_C6_filter_all_conditions (kvs : PyDict) (conds : List FilterCondition)
    (c : FilterCondition) (h : kvs.find c.field = Option.none) :
    (check_filter_conditions (.dict kvs) conds = Except.ok true ↔
      conds.all (fun cc => conditionHoldsB kvs cc) = true) ∧
    conditionHolds kvs c = Except.ok true := by
  constructor
  · induction conds with
    | nil => simp [check_filter_conditions]
    | cons c' rest ih =>
        rw [check_filter_cons]
        cases hf : kvs.find c'.field with
        | none =>
            simp only [List.all_cons, conditionHoldsB, conditionHolds, hf, Bool.true_and]
            exact ih
        | some v =>
            cases ht : conditionTest v c'.operator c'.value with
            | error e =>
                simp [List.all_cons, conditionHoldsB, conditionHolds, hf, ht]
            | ok b =>
                cases b with
                | true =>
                    simp only [List.all_cons, conditionHoldsB, conditionHolds, hf, ht,
                      Bool.true_and]
                    exact ih
                | false =>
                    simp [List.all_cons, conditionHoldsB, conditionHolds, hf, ht]
  · unfold conditionHolds
    rw [h]

/-- Witness for claim C6: a record `\x7ba: 5\x7d` with conditions
`a > 3` and one condition on an absent field. -/
theorem claim_C6_witness :
    (PyDict.cons "a" (.int 5) .nil).find "zz" = Option.none ∧
    ((check_filter_conditions (.dict (.cons "a" (.int 5) .nil))
        [⟨"a", "gt", .int 3⟩, ⟨"missing", "eq", .int 1⟩] = Except.ok true ↔
      ([⟨"a", "gt", .int 3⟩, ⟨"missing", "eq", .int 1⟩] : List FilterCondition).all
        (fun cc => conditionHoldsB (.cons "a" (.int 5) .nil) cc) = true) ∧
     conditionHolds (.cons "a" (.int 5) .nil) ⟨"zz", "eq", .none⟩ = Except.ok true) :=
  ⟨by decide,
   claim_C6_filter_all_conditions (.cons "a" (.int 5) .nil)
     [⟨"a", "gt", .int 3⟩, ⟨"missing", "eq", .int 1⟩] ⟨"zz", "eq", .none⟩ (by decide)⟩
